import Mathlib

set_option linter.unusedVariables false

namespace SPMFin

/-! Shallow embedding of the SPMFin balance-ledger engine: the data model of
finances/models.py, the balance-adjustment signal handlers of finances/signals.py,
the transfer-aware create path of finances/serializers.py and the transfer-aware
update/destroy paths of finances/views.py.  Decimal amounts (two decimal places)
are modelled exactly as integers in cents; table rows as structures; the database
as lists of rows plus counters supplying the auto-generated primary keys and the
generated transfer uuid. -/

/-- Category.CATEGORY_TYPES from models.py: the value of the `type` column. -/
inductive CatType where
  | income
  | expense
deriving DecidableEq, Repr

/-- Account row (models.py): identity, owner, name and the cached decimal balance. -/
structure Account where
  account_id : Nat
  userId : Nat
  name : String
  balance : Int
deriving DecidableEq, Repr

/-- Category row (models.py): identity, owner, name and direction.  The optional
parent category is informational only and not needed by the ledger logic. -/
structure Category where
  category_id : Nat
  userId : Nat
  name : String
  ctype : CatType
deriving DecidableEq, Repr

/-- Transaction row (models.py).  The `category` field models the foreign-key
object (the code always reads `tx.category.type` through the FK); `account` is
the foreign-key id, balances being looked up in the account table. -/
structure Transaction where
  txn_id : Nat
  userId : Nat
  account : Nat
  category : Category
  amount : Int
  description : String
  txn_date : Int
  transfer_uuid : Option Nat
deriving DecidableEq, Repr

/-- Transaction.is_income from models.py. -/
def Transaction.is_income (t : Transaction) : Bool :=
  decide (t.category.ctype = CatType.income)

/-- Transaction.is_expense from models.py. -/
def Transaction.is_expense (t : Transaction) : Bool :=
  decide (t.category.ctype = CatType.expense)

/-- The database state: the three tables touched by the ledger engine plus
counters for auto-assigned primary keys and for freshly generated uuids. -/
structure DB where
  accounts : List Account
  categories : List Category
  txns : List Transaction
  nextTxnId : Nat
  nextCatId : Nat
  nextUuid : Nat
deriving DecidableEq, Repr

/-- signals.sign: +1 for income, -1 for expense. -/
def sign (tx : Transaction) : Int :=
  if tx.category.ctype = CatType.income then 1 else -1

/-- The signed effect of a transaction on its account, `sign(tx) * tx.amount`
(the quantity the signal handlers add to and subtract from balances). -/
def effect (tx : Transaction) : Int := sign tx * tx.amount

/-- Transaction.objects.get(pk=...) within one user's data is a plain pk lookup. -/
def findTxn (db : DB) (pk : Nat) : Option Transaction :=
  db.txns.find? (fun t => t.txn_id == pk)

/-- Account.objects.get(pk=...). -/
def findAccount (db : DB) (aid : Nat) : Option Account :=
  db.accounts.find? (fun a => a.account_id == aid)

/-- Transaction.objects.filter(transfer_uuid=tu, user=user). -/
def transferLegs (db : DB) (userId : Nat) (tu : Nat) : List Transaction :=
  db.txns.filter (fun t => t.transfer_uuid == some tu && t.userId == userId)

/-- Exceptions raised inside the signal handlers: `.get` on a queryset raising
DoesNotExist / MultipleObjectsReturned, and the AttributeError raised by
`outgoing.pk` when no expense-direction leg exists in revert_balance_on_delete. -/
inductive SigErr where
  | doesNotExist
  | attrError
deriving DecidableEq, Repr

/-- The `_adjustment` dict stashed on the instance by the pre_save handler:
either the normal single-account shape or the transfer two-account shape. -/
inductive Adjustment where
  | normal (old_account : Option Nat) (new_account : Nat) (delta_old delta_new : Int)
  | transfer (out_account : Nat) (out_delta : Int) (in_account : Nat) (in_delta : Int)
deriving DecidableEq, Repr

/-- signals.adjust_balance_on_update (pre_save handler): computes the balance
adjustment for a create (isNew, `instance.pk is None`) or an update.  Returns
`ok none` where the handler sets `_adjustment = None` (old row missing, or a
transfer whose uuid does not resolve to exactly two legs), and an error where
the handler itself raises (`.get(category__type=...)` not matching exactly one
row among the two legs). -/
def adjust_balance_on_update (db : DB) (inst : Transaction) (isNew : Bool) :
    Except SigErr (Option Adjustment) :=
  if isNew then
    .ok (some (.normal none inst.account 0 (sign inst * inst.amount)))
  else
    match findTxn db inst.txn_id with
    | none => .ok none
    | some old =>
      match old.transfer_uuid with
      | some tu =>
        let transfer_txns := transferLegs db inst.userId tu
        if transfer_txns.length ≠ 2 then .ok none
        else
          match transfer_txns.filter (fun t => t.is_expense),
                transfer_txns.filter (fun t => t.is_income) with
          | [outgoing], [incoming] =>
            let out_delta := if inst.txn_id = outgoing.txn_id
              then sign inst * inst.amount - sign outgoing * outgoing.amount else 0
            let in_delta := if inst.txn_id = incoming.txn_id
              then sign inst * inst.amount - sign incoming * incoming.amount else 0
            .ok (some (.transfer outgoing.account out_delta incoming.account in_delta))
          | _, _ => .error .doesNotExist
      | none =>
        let old_effect := sign old * old.amount
        let new_effect := sign inst * inst.amount
        let delta_old := if old.account ≠ inst.account then -old_effect else 0
        let delta_new := if old.account ≠ inst.account then new_effect
                         else new_effect - old_effect
        .ok (some (.normal (if delta_old ≠ 0 then some old.account else none)
                           inst.account delta_old delta_new))

/-- Adding a delta to one account row under select_for_update: every row with
the given id has the delta added to its balance. -/
def applyDelta (aid : Nat) (d : Int) (accs : List Account) : List Account :=
  accs.map (fun a => if a.account_id = aid then { a with balance := a.balance + d } else a)

/-- signals.apply_balance_on_create_or_update (post_save handler): applies the
stashed adjustment to the account table (nothing when `_adjustment` is falsy). -/
def apply_balance_on_create_or_update : Option Adjustment → List Account → List Account
  | none, accs => accs
  | some (.transfer outAcc outD inAcc inD), accs =>
    applyDelta inAcc inD (applyDelta outAcc outD accs)
  | some (.normal old_account new_account delta_old delta_new), accs =>
    let accs1 := match old_account with
      | some a => applyDelta a delta_old accs
      | none => accs
    applyDelta new_account delta_new accs1

/-- signals.revert_balance_on_delete (pre_delete handler): for a transfer leg,
only the first expense-direction leg (the driving leg) reverts the effect of
every leg of the transfer; any other leg makes no balance change.  For a
normal transaction the handler subtracts its effect from its account.  When no
expense-direction leg exists, `outgoing` is None and `outgoing.pk` raises. -/
def revert_balance_on_delete (db : DB) (inst : Transaction) :
    Except SigErr (List Account) :=
  match inst.transfer_uuid with
  | some tu =>
    let transfer_txns := transferLegs db inst.userId tu
    match (transfer_txns.filter (fun t => t.is_expense)).head? with
    | none => .error .attrError
    | some outgoing =>
      if inst.txn_id ≠ outgoing.txn_id then .ok db.accounts
      else .ok (transfer_txns.foldl
        (fun accs tx => applyDelta tx.account (-(sign tx * tx.amount)) accs) db.accounts)
  | none => .ok (applyDelta inst.account (-(sign inst * inst.amount)) db.accounts)

/-- Transaction.objects.create(...): builds the row with the next auto pk, runs
the pre_save handler (new-instance branch) and the post_save handler.  The
error branch is unreachable: the new-instance branch of the pre_save handler
never raises. -/
def objects_create (db : DB) (userId accountId : Nat) (category : Category)
    (amount : Int) (description : String) (txn_date : Int)
    (transfer_uuid : Option Nat) : DB × Transaction :=
  let t : Transaction :=
    { txn_id := db.nextTxnId, userId := userId, account := accountId,
      category := category, amount := amount, description := description,
      txn_date := txn_date, transfer_uuid := transfer_uuid }
  match adjust_balance_on_update db t true with
  | .ok adj =>
    ({ db with txns := t :: db.txns, nextTxnId := db.nextTxnId + 1,
               accounts := apply_balance_on_create_or_update adj db.accounts }, t)
  | .error _ => (db, t)

/-- Replacing the row with the instance's pk (a Django UPDATE by pk). -/
def replaceTxn (inst : Transaction) (txns : List Transaction) : List Transaction :=
  txns.map (fun t => if t.txn_id == inst.txn_id then inst else t)

/-- instance.save() on an existing row: pre_save handler, row UPDATE, post_save
handler.  When the pre_save handler raises, nothing is persisted. -/
def save_existing (db : DB) (inst : Transaction) : Except SigErr DB :=
  match adjust_balance_on_update db inst false with
  | .error e => .error e
  | .ok adj =>
    .ok { db with txns := replaceTxn inst db.txns,
                  accounts := apply_balance_on_create_or_update adj db.accounts }

/-- API-level failures surfaced by the serializer and viewset paths. -/
inductive ApiErr where
  | notFound
  | ownership
  | invalidTransferCategory
  | immutableTransferAccount
  | invalidTransferState
  | sig (e : SigErr)
deriving DecidableEq, Repr

/-- The ownership check on an account reference (serializers.TransactionSerializer
.validate: the referenced account must exist and belong to the acting user). -/
def account_owner_check (db : DB) (user : Nat) : Option Nat → Option ApiErr
  | none => none
  | some aid =>
    match findAccount db aid with
    | none => some .notFound
    | some a => if a.userId ≠ user then some .ownership else none

/-- serializers.TransactionSerializer.validate: category and account, when
present in the request, must belong to the acting user. -/
def validate_attrs (db : DB) (user : Nat) (category : Option Category)
    (account : Option Nat) : Option ApiErr :=
  match category with
  | some c => if c.userId ≠ user then some .ownership
              else account_owner_check db user account
  | none => account_owner_check db user account

/-- The `transfer` dict a client passes to create a transfer. -/
structure TransferInfo where
  to_account : Nat
deriving DecidableEq, Repr

/-- Category.objects.get_or_create(user=user, name=Transfer In, type=income):
returns the existing per-user row when present, otherwise inserts one. -/
def get_or_create_transfer_in (db : DB) (user : Nat) : DB × Category :=
  match db.categories.find? (fun c =>
      c.userId == user && c.name == "Transfer In" && decide (c.ctype = CatType.income)) with
  | some c => (db, c)
  | none =>
    let c : Category := { category_id := db.nextCatId, userId := user,
                          name := "Transfer In", ctype := CatType.income }
    ({ db with categories := c :: db.categories, nextCatId := db.nextCatId + 1 }, c)

/-- serializers.TransactionSerializer.create (with perform_create supplying the
acting user): for a plain transaction one row is created; for a transfer the
destination account is fetched and checked, the outgoing category must be
expense-direction, a fresh uuid is generated, the per-user Transfer In income
category is obtained by get_or_create, and the outgoing then the incoming rows
are created with the shared uuid; the outgoing row is returned. -/
def TransactionSerializer.create (db : DB) (user : Nat) (account : Nat)
    (category : Category) (amount : Int) (description : String) (txn_date : Int)
    (transfer : Option TransferInfo) : DB × Except ApiErr Transaction :=
  match validate_attrs db user (some category) (some account) with
  | some e => (db, .error e)
  | none =>
    match transfer with
    | none =>
      let r := objects_create db user account category amount description txn_date none
      (r.1, .ok r.2)
    | some info =>
      match findAccount db info.to_account with
      | none => (db, .error .notFound)
      | some to_account =>
        if to_account.userId ≠ user then (db, .error .ownership)
        else if category.ctype ≠ CatType.expense then (db, .error .invalidTransferCategory)
        else
          match findAccount db account with
          | none => (db, .error .notFound)
          | some from_account =>
            let transfer_uuid := db.nextUuid
            let db0 := { db with nextUuid := db.nextUuid + 1 }
            let r1 := get_or_create_transfer_in db0 user
            let r2 := objects_create r1.1 user account category amount description
                txn_date (some transfer_uuid)
            let r3 := objects_create r2.1 user info.to_account r1.2 amount
                ("Transfer from " ++ from_account.name ++ ": " ++ description)
                txn_date (some transfer_uuid)
            (r3.1, .ok r2.2)

/-- A partial-update request body: `some` marks a key present in the data. -/
structure Patch where
  account : Option Nat
  category : Option Category
  amount : Option Int
  description : Option String
  txn_date : Option Int
deriving DecidableEq, Repr

/-- Applying a partial serializer update to an instance. -/
def applyPatch (t : Transaction) (p : Patch) : Transaction :=
  { t with
    account := p.account.getD t.account,
    category := p.category.getD t.category,
    amount := p.amount.getD t.amount,
    description := p.description.getD t.description,
    txn_date := p.txn_date.getD t.txn_date }

/-- The mirror payload views.TransactionViewSet.update builds for the partner
(incoming) leg: amount, the re-derived description and the date of the freshly
saved outgoing leg. -/
def mirrorPatch (from_name : String) (newOut : Transaction) : Patch :=
  { account := none, category := none,
    amount := some newOut.amount,
    description := some
      ("Transfer from " ++ from_name ++ ": " ++ newOut.description),
    txn_date := some newOut.txn_date }

/-- views.TransactionViewSet.update: for a non-transfer row, a plain validated
partial update.  For a transfer leg: reject any request naming `account`; fetch
both legs (reject unless exactly two); identify outgoing and incoming by
category direction (`.get` raising unless exactly one of each); apply the
caller's edit to the outgoing leg; then mirror amount, re-derived description
and date onto the incoming leg. -/
def TransactionViewSet.update (db : DB) (user : Nat) (txnId : Nat) (p : Patch) :
    DB × Option ApiErr :=
  match db.txns.find? (fun t => t.txn_id == txnId && t.userId == user) with
  | none => (db, some .notFound)
  | some inst =>
    match inst.transfer_uuid with
    | none =>
      match validate_attrs db user p.category p.account with
      | some e => (db, some e)
      | none =>
        match save_existing db (applyPatch inst p) with
        | .error e => (db, some (.sig e))
        | .ok db1 => (db1, none)
    | some tu =>
      if p.account.isSome then (db, some .immutableTransferAccount)
      else
        let transactions := transferLegs db user tu
        if transactions.length ≠ 2 then (db, some .invalidTransferState)
        else
          match transactions.filter (fun t => t.is_expense),
                transactions.filter (fun t => t.is_income) with
          | [outgoing], [incoming] =>
            match validate_attrs db user p.category p.account with
            | some e => (db, some e)
            | none =>
              let newOut := applyPatch outgoing p
              match save_existing db newOut with
              | .error e => (db, some (.sig e))
              | .ok db1 =>
                let from_name := ((findAccount db newOut.account).map Account.name).getD ""
                let mirror : Patch := mirrorPatch from_name newOut
                match save_existing db1 (applyPatch incoming mirror) with
                | .error e => (db1, some (.sig e))
                | .ok db2 => (db2, none)
          | _, _ => (db, some (.sig .doesNotExist))

/-- The pre_delete phase of a queryset delete: Django's collector fires the
pre_delete signal for every collected row, against the still-unchanged
transaction table, before removing any row; each handler's atomic block
commits its own balance writes, so the accounts thread through. -/
def runPreDeletes (db : DB) : List Transaction → List Account →
    List Account × Option SigErr
  | [], accs => (accs, none)
  | t :: ts, accs =>
    match revert_balance_on_delete { db with accounts := accs } t with
    | .error e => (accs, some e)
    | .ok accs1 => runPreDeletes db ts accs1

/-- views.TransactionViewSet.destroy: a transfer leg triggers a queryset delete
of every row of the acting user sharing the uuid (pre_delete signals first,
then row removal); a normal row is deleted alone after its pre_delete. -/
def TransactionViewSet.destroy (db : DB) (user : Nat) (txnId : Nat) :
    DB × Option ApiErr :=
  match db.txns.find? (fun t => t.txn_id == txnId && t.userId == user) with
  | none => (db, some .notFound)
  | some inst =>
    match inst.transfer_uuid with
    | some tu =>
      let legs := transferLegs db user tu
      match runPreDeletes db legs db.accounts with
      | (accs, some e) => ({ db with accounts := accs }, some (.sig e))
      | (accs, none) =>
        let remaining := db.txns.filter (fun t =>
          !(t.transfer_uuid == some tu && t.userId == user))
        ({ db with accounts := accs, txns := remaining }, none)
    | none =>
      match revert_balance_on_delete db inst with
      | .error e => (db, some (.sig e))
      | .ok accs =>
        let remaining := db.txns.filter (fun t => !(t.txn_id == inst.txn_id))
        ({ db with accounts := accs, txns := remaining }, none)

/-- The sum of signed effects of the transactions referencing one account. -/
def txnSum (aid : Nat) (txns : List Transaction) : Int :=
  ((txns.filter (fun t => t.account == aid)).map effect).sum

/-- The balance invariant: every cached balance equals the sum of signed
effects over the transactions referencing that account. -/
def BalanceInv (db : DB) : Prop :=
  ∀ a ∈ db.accounts, a.balance = txnSum a.account_id db.txns

/-- Auto-assigned transaction pks are below the pk counter. -/
def PkFresh (db : DB) : Prop := ∀ t ∈ db.txns, t.txn_id < db.nextTxnId

/-- Transaction pks are pairwise distinct. -/
def PkNodup (db : DB) : Prop := (db.txns.map Transaction.txn_id).Nodup

/-- The full database invariant. -/
def Inv (db : DB) : Prop := BalanceInv db ∧ PkFresh db ∧ PkNodup db

/-! ### Concrete example data, following the scenario of the design notes:
an income transaction on a Cash account plus a 300-unit transfer from Cash
to Bank represented by two rows sharing a transfer uuid. -/

def catSalary : Category :=
  { category_id := 1, userId := 1, name := "Salary", ctype := CatType.income }

def catFood : Category :=
  { category_id := 2, userId := 1, name := "Food", ctype := CatType.expense }

def catTransferIn : Category :=
  { category_id := 3, userId := 1, name := "Transfer In", ctype := CatType.income }

def accCash : Account :=
  { account_id := 1, userId := 1, name := "Cash", balance := 700 }

def accBank : Account :=
  { account_id := 2, userId := 1, name := "Bank", balance := 300 }

def txnSalary : Transaction :=
  { txn_id := 1, userId := 1, account := 1, category := catSalary, amount := 1000,
    description := "pay", txn_date := 0, transfer_uuid := none }

def txnOut : Transaction :=
  { txn_id := 2, userId := 1, account := 1, category := catFood, amount := 300,
    description := "move", txn_date := 1, transfer_uuid := some 100 }

def txnIn : Transaction :=
  { txn_id := 3, userId := 1, account := 2, category := catTransferIn, amount := 300,
    description := "Transfer from Cash: move", txn_date := 1, transfer_uuid := some 100 }

def dbW : DB :=
  { accounts := [accCash, accBank],
    categories := [catSalary, catFood, catTransferIn],
    txns := [txnIn, txnOut, txnSalary],
    nextTxnId := 4, nextCatId := 10, nextUuid := 101 }

/-- A lone expense-direction leg whose uuid 9 resolves to no partner. -/
def txnLoneExpense : Transaction :=
  { txn_id := 10, userId := 1, account := 1, category := catFood, amount := 70,
    description := "", txn_date := 0, transfer_uuid := some 9 }

/-- A lone income-direction leg whose uuid 8 resolves to no partner. -/
def txnLoneIncome : Transaction :=
  { txn_id := 11, userId := 1, account := 1, category := catSalary, amount := 40,
    description := "", txn_date := 0, transfer_uuid := some 8 }

/-- The first of two expense-direction rows sharing uuid 7. -/
def txnTwoExpA : Transaction :=
  { txn_id := 12, userId := 1, account := 2, category := catFood, amount := 10,
    description := "", txn_date := 0, transfer_uuid := some 7 }

/-- The second of two expense-direction rows sharing uuid 7. -/
def txnTwoExpB : Transaction :=
  { txn_id := 13, userId := 1, account := 2, category := catFood, amount := 20,
    description := "", txn_date := 0, transfer_uuid := some 7 }

/-- A database holding three corrupted transfer groups: a lone expense leg
(uuid 9), a lone income leg (uuid 8), and a two-expense-leg pair (uuid 7). -/
def dbC5 : DB :=
  { accounts := [ { account_id := 1, userId := 1, name := "A", balance := 0 },
                  { account_id := 2, userId := 1, name := "B", balance := 0 } ],
    categories := [catSalary, catFood],
    txns := [txnLoneExpense, txnLoneIncome, txnTwoExpA, txnTwoExpB],
    nextTxnId := 14, nextCatId := 10, nextUuid := 101 }

def pnone : Patch :=
  { account := none, category := none, amount := none, description := none,
    txn_date := none }

def patchFoo : Patch :=
  { account := none, category := none, amount := none, description := some "foo",
    txn_date := none }

def patchAcc : Patch :=
  { account := some 2, category := none, amount := none, description := none,
    txn_date := none }

def patchAmt450 : Patch :=
  { account := none, category := none, amount := some 450, description := none,
    txn_date := none }

/-! ### Basic lemmas about the balance applier and the effect sums -/

theorem applyDelta_zero (aid : Nat) (accs : List Account) :
    applyDelta aid 0 accs = accs := by
  induction accs with
  | nil => rfl
  | cons a l ih =>
    show (if a.account_id = aid then { a with balance := a.balance + 0 } else a) ::
        applyDelta aid 0 l = a :: l
    rw [ih]
    congr 1
    split
    · cases a; simp
    · rfl

theorem mem_applyDelta (aid : Nat) (d : Int) (accs : List Account) (a' : Account) :
    a' ∈ applyDelta aid d accs ↔ ∃ a ∈ accs,
      a' = if a.account_id = aid then { a with balance := a.balance + d } else a := by
  simp only [applyDelta, List.mem_map]
  constructor
  · rintro ⟨a, ha, rfl⟩; exact ⟨a, ha, rfl⟩
  · rintro ⟨a, ha, rfl⟩; exact ⟨a, ha, rfl⟩

theorem txnSum_nil (aid : Nat) : txnSum aid [] = 0 := rfl

theorem txnSum_cons (aid : Nat) (t : Transaction) (ts : List Transaction) :
    txnSum aid (t :: ts) = (if t.account = aid then effect t else 0) + txnSum aid ts := by
  by_cases h : t.account = aid
  · simp [txnSum, List.filter_cons, h]
  · simp [txnSum, List.filter_cons, h]

theorem txnSum_partition (aid : Nat) (p : Transaction → Bool) (ts : List Transaction) :
    txnSum aid ts = txnSum aid (ts.filter p) + txnSum aid (ts.filter (fun t => !(p t))) := by
  induction ts with
  | nil => simp [txnSum]
  | cons t ts ih =>
    by_cases hp : p t
    · rw [List.filter_cons, List.filter_cons, if_pos hp, if_neg (by simp [hp]),
        txnSum_cons, txnSum_cons, ih]
      ring
    · rw [List.filter_cons, List.filter_cons, if_neg hp, if_pos (by simp [Bool.not_eq_true] at hp ⊢; exact hp),
        txnSum_cons, txnSum_cons, ih]
      ring

theorem filter_pk_eq_singleton (txns : List Transaction) (inst : Transaction)
    (hmem : inst ∈ txns) (hnd : (txns.map Transaction.txn_id).Nodup) :
    txns.filter (fun t => t.txn_id == inst.txn_id) = [inst] := by
  induction txns with
  | nil => cases hmem
  | cons t ts ih =>
    simp only [List.map_cons, List.nodup_cons] at hnd
    rcases List.mem_cons.mp hmem with rfl | hmem'
    · have hnil : ts.filter (fun u => u.txn_id == inst.txn_id) = [] := by
        rw [List.filter_eq_nil_iff]
        intro u hu
        simp only [beq_iff_eq]
        intro h
        have hm : u.txn_id ∈ ts.map Transaction.txn_id :=
          List.mem_map_of_mem Transaction.txn_id hu
        rw [h] at hm
        exact hnd.1 hm
      simp [List.filter_cons, hnil]
    · have hne : t.txn_id ≠ inst.txn_id := fun h => by
        have hm : inst.txn_id ∈ ts.map Transaction.txn_id :=
          List.mem_map_of_mem Transaction.txn_id hmem'
        rw [← h] at hm
        exact hnd.1 hm
      simp [List.filter_cons, hne, ih hmem' hnd.2]

theorem find?_pk_eq_of_mem_nodup (txns : List Transaction) (inst : Transaction)
    (hmem : inst ∈ txns) (hnd : (txns.map Transaction.txn_id).Nodup) :
    txns.find? (fun t => t.txn_id == inst.txn_id) = some inst := by
  induction txns with
  | nil => cases hmem
  | cons t ts ih =>
    simp only [List.map_cons, List.nodup_cons] at hnd
    rcases List.mem_cons.mp hmem with rfl | hmem'
    · exact List.find?_cons_of_pos _ (by simp)
    · have hne : t.txn_id ≠ inst.txn_id := fun h => by
        have hm : inst.txn_id ∈ ts.map Transaction.txn_id :=
          List.mem_map_of_mem Transaction.txn_id hmem'
        rw [← h] at hm
        exact hnd.1 hm
      rw [List.find?_cons_of_neg _ (by simp [hne])]
      exact ih hmem' hnd.2

theorem eq_of_mem_pk (txns : List Transaction)
    (hnd : (txns.map Transaction.txn_id).Nodup) (a b : Transaction)
    (ha : a ∈ txns) (hb : b ∈ txns) (h : a.txn_id = b.txn_id) : a = b :=
  List.inj_on_of_nodup_map hnd ha hb h

/-! ### Lemmas about row replacement (UPDATE by pk) -/

theorem replaceTxn_map_txn_id (inst : Transaction) (txns : List Transaction) :
    (replaceTxn inst txns).map Transaction.txn_id = txns.map Transaction.txn_id := by
  induction txns with
  | nil => rfl
  | cons t ts ih =>
    have hshow : replaceTxn inst (t :: ts)
        = (if t.txn_id == inst.txn_id then inst else t) :: replaceTxn inst ts := rfl
    rw [hshow, List.map_cons, List.map_cons, ih]
    congr 1
    by_cases h : t.txn_id = inst.txn_id
    · simp [h]
    · simp [h]

theorem replaceTxn_of_forall_ne (inst : Transaction) (txns : List Transaction)
    (h : ∀ t ∈ txns, t.txn_id ≠ inst.txn_id) : replaceTxn inst txns = txns := by
  induction txns with
  | nil => rfl
  | cons t ts ih =>
    show (if t.txn_id == inst.txn_id then inst else t) :: replaceTxn inst ts = t :: ts
    rw [ih (fun u hu => h u (List.mem_cons_of_mem t hu))]
    simp [h t (List.mem_cons_self t ts)]

theorem find?_replaceTxn_ne (inst : Transaction) (txns : List Transaction) (k : Nat)
    (hk : k ≠ inst.txn_id) :
    (replaceTxn inst txns).find? (fun t => t.txn_id == k)
      = txns.find? (fun t => t.txn_id == k) := by
  induction txns with
  | nil => rfl
  | cons t ts ih =>
    have hshow : replaceTxn inst (t :: ts)
        = (if t.txn_id == inst.txn_id then inst else t) :: replaceTxn inst ts := rfl
    rw [hshow]
    by_cases h : t.txn_id = inst.txn_id
    · rw [if_pos (by simp [h])]
      rw [List.find?_cons_of_neg _ (by simp [Ne.symm hk]),
          List.find?_cons_of_neg _ (by simp [h ▸ Ne.symm hk])]
      exact ih
    · rw [if_neg (by simp [h])]
      by_cases hk2 : t.txn_id = k
      · rw [List.find?_cons_of_pos _ (by simp [hk2]),
            List.find?_cons_of_pos _ (by simp [hk2])]
      · rw [List.find?_cons_of_neg _ (by simp [hk2]),
            List.find?_cons_of_neg _ (by simp [hk2])]
        exact ih

theorem filter_replaceTxn (p : Transaction → Bool) (inst : Transaction)
    (txns : List Transaction)
    (h : ∀ t ∈ txns, t.txn_id = inst.txn_id → p t = p inst) :
    (replaceTxn inst txns).filter p = replaceTxn inst (txns.filter p) := by
  induction txns with
  | nil => rfl
  | cons t ts ih =>
    have hrec := ih (fun u hu => h u (List.mem_cons_of_mem t hu))
    have hshow : replaceTxn inst (t :: ts)
        = (if t.txn_id == inst.txn_id then inst else t) :: replaceTxn inst ts := rfl
    rw [hshow]
    by_cases hpk : t.txn_id = inst.txn_id
    · have hp : p t = p inst := h t (List.mem_cons_self t ts) hpk
      rw [if_pos (by simp [hpk]), List.filter_cons, List.filter_cons, ← hp]
      by_cases hpt : p t
      · rw [if_pos hpt, if_pos hpt]
        have hshow2 : replaceTxn inst (t :: ts.filter p)
            = (if t.txn_id == inst.txn_id then inst else t) :: replaceTxn inst (ts.filter p) := rfl
        rw [hshow2, if_pos (by simp [hpk]), hrec]
      · rw [if_neg hpt, if_neg hpt, hrec]
    · rw [if_neg (by simp [hpk]), List.filter_cons, List.filter_cons]
      by_cases hpt : p t
      · rw [if_pos hpt, if_pos hpt]
        have hshow2 : replaceTxn inst (t :: ts.filter p)
            = (if t.txn_id == inst.txn_id then inst else t) :: replaceTxn inst (ts.filter p) := rfl
        rw [hshow2, if_neg (by simp [hpk]), hrec]
      · rw [if_neg hpt, if_neg hpt, hrec]

/-- The one-pass reversal fold of the driving leg, expressed as a single map
over the account table: each account receives the summed delta of the legs
referencing it. -/
theorem foldl_applyDelta (f : Transaction → Int) (legs : List Transaction)
    (accs : List Account) :
    legs.foldl (fun ac tx => applyDelta tx.account (f tx) ac) accs
      = accs.map (fun a => { a with balance :=
          a.balance + ((legs.filter (fun t => t.account == a.account_id)).map f).sum }) := by
  induction legs generalizing accs with
  | nil =>
    simp only [List.foldl_nil, List.filter_nil, List.map_nil, List.sum_nil]
    induction accs with
    | nil => rfl
    | cons a l ihl =>
      rw [List.map_cons]
      rw [← ihl]
      congr 1
      cases a; simp
  | cons t ts ih =>
    rw [List.foldl_cons, ih, applyDelta, List.map_map]
    apply List.map_congr_left
    intro a _
    by_cases h : a.account_id = t.account
    · simp only [Function.comp, if_pos h, List.filter_cons]
      rw [if_pos (by simp [h.symm])]
      rw [List.map_cons, List.sum_cons]
      simp [add_assoc]
    · simp only [Function.comp, if_neg h, List.filter_cons]
      rw [if_neg (by simp; exact fun hc => h hc.symm)]

theorem sum_map_neg_effect (aid : Nat) (legs : List Transaction) :
    ((legs.filter (fun t => t.account == aid)).map
        (fun t => -(sign t * t.amount))).sum = -(txnSum aid legs) := by
  unfold txnSum
  induction (legs.filter (fun t => t.account == aid)) with
  | nil => simp
  | cons t ts ih => simp [ih, effect]; ring

theorem find?_applyDelta (aid : Nat) (d : Int) (accs : List Account) (k : Nat) :
    (applyDelta aid d accs).find? (fun a => a.account_id == k)
      = (accs.find? (fun a => a.account_id == k)).map
          (fun a => if a.account_id = aid then { a with balance := a.balance + d } else a) := by
  induction accs with
  | nil => rfl
  | cons a l ih =>
    have hshow : applyDelta aid d (a :: l)
        = (if a.account_id = aid then { a with balance := a.balance + d } else a)
            :: applyDelta aid d l := rfl
    rw [hshow]
    by_cases hk : a.account_id = k
    · rw [List.find?_cons_of_pos _ (by split <;> simp [hk]),
          List.find?_cons_of_pos _ (by simp [hk])]
      simp
    · rw [List.find?_cons_of_neg _ (by split <;> simp [hk]),
          List.find?_cons_of_neg _ (by simp [hk])]
      exact ih

theorem is_expense_eq_not_is_income (t : Transaction) :
    t.is_expense = !t.is_income := by
  unfold Transaction.is_expense Transaction.is_income
  cases h : t.category.ctype <;> simp [h]

theorem mem_transferLegs (db : DB) (user tu : Nat) (t : Transaction) :
    t ∈ transferLegs db user tu
      ↔ t ∈ db.txns ∧ t.transfer_uuid = some tu ∧ t.userId = user := by
  simp [transferLegs, List.mem_filter, and_assoc]

theorem txnSum_replaceTxn (aid : Nat) (inst inst0 : Transaction) (txns : List Transaction)
    (hmem : inst0 ∈ txns) (hpk : inst0.txn_id = inst.txn_id)
    (hnd : (txns.map Transaction.txn_id).Nodup) :
    txnSum aid (replaceTxn inst txns)
      = txnSum aid txns + (if inst.account = aid then effect inst else 0)
          - (if inst0.account = aid then effect inst0 else 0) := by
  induction txns with
  | nil => cases hmem
  | cons t ts ih =>
    simp only [List.map_cons, List.nodup_cons] at hnd
    have hshow : replaceTxn inst (t :: ts)
        = (if t.txn_id == inst.txn_id then inst else t) :: replaceTxn inst ts := rfl
    rcases List.mem_cons.mp hmem with rfl | hmem'
    · have hrest : replaceTxn inst ts = ts := by
        apply replaceTxn_of_forall_ne
        intro u hu h
        have hm : u.txn_id ∈ ts.map Transaction.txn_id :=
          List.mem_map_of_mem Transaction.txn_id hu
        rw [h.trans hpk.symm] at hm
        exact hnd.1 hm
      rw [hshow, hrest, if_pos (by simp [hpk]), txnSum_cons, txnSum_cons]
      ring
    · have hne : t.txn_id ≠ inst.txn_id := fun h => by
        have hm : inst0.txn_id ∈ ts.map Transaction.txn_id :=
          List.mem_map_of_mem Transaction.txn_id hmem'
        rw [hpk, ← h] at hm
        exact hnd.1 hm
      rw [hshow, if_neg (by simp [hne]), txnSum_cons, txnSum_cons, ih hmem' hnd.2]
      ring


/-! ### Characterizations of the save and delete paths -/

theorem pkFresh_iff (txns : List Transaction) (n : Nat) :
    (∀ t ∈ txns, t.txn_id < n) ↔ ∀ k ∈ txns.map Transaction.txn_id, k < n := by
  simp

theorem objects_create_spec (db : DB) (u aid : Nat) (cat : Category) (amt : Int)
    (dsc : String) (dt : Int) (tu : Option Nat) :
    objects_create db u aid cat amt dsc dt tu
      = ({ db with
            txns := { txn_id := db.nextTxnId, userId := u, account := aid, category := cat,
                      amount := amt, description := dsc, txn_date := dt,
                      transfer_uuid := tu } :: db.txns,
            nextTxnId := db.nextTxnId + 1,
            accounts := applyDelta aid
              (effect { txn_id := db.nextTxnId, userId := u, account := aid, category := cat,
                        amount := amt, description := dsc, txn_date := dt,
                        transfer_uuid := tu }) db.accounts },
         { txn_id := db.nextTxnId, userId := u, account := aid, category := cat,
           amount := amt, description := dsc, txn_date := dt, transfer_uuid := tu }) := rfl

theorem objects_create_inv (db : DB) (u aid : Nat) (cat : Category) (amt : Int)
    (dsc : String) (dt : Int) (tu : Option Nat) (h : Inv db) :
    Inv (objects_create db u aid cat amt dsc dt tu).1 := by
  obtain ⟨hbal, hfresh, hnd⟩ := h
  rw [objects_create_spec]
  refine ⟨?_, ?_, ?_⟩
  · intro a' ha'
    rw [mem_applyDelta] at ha'
    obtain ⟨a, ha, rfl⟩ := ha'
    have hb := hbal a ha
    by_cases hacc : a.account_id = aid
    · rw [if_pos hacc]
      show a.balance + _ = txnSum _ _
      rw [txnSum_cons, hb, hacc]
      rw [if_pos rfl]
      ring
    · rw [if_neg hacc]
      rw [txnSum_cons, hb]
      rw [if_neg (fun hc => hacc (by exact hc.symm))]
      ring
  · intro t ht
    rcases List.mem_cons.mp ht with rfl | ht'
    · show db.nextTxnId < db.nextTxnId + 1
      omega
    · exact Nat.lt_succ_of_lt (hfresh t ht')
  · simp only [PkNodup, List.map_cons, List.nodup_cons]
    refine ⟨?_, hnd⟩
    intro hmem
    rw [List.mem_map] at hmem
    obtain ⟨t, ht, hpk⟩ := hmem
    exact absurd hpk (Nat.ne_of_lt (hfresh t ht))

/-- Unpacking membership in a single applyDelta pass. -/
theorem mem_applyDelta1 (aid1 : Nat) (d1 : Int) (accs : List Account) (a' : Account)
    (ha' : a' ∈ applyDelta aid1 d1 accs) :
    ∃ a ∈ accs, a'.account_id = a.account_id ∧
      a'.balance = a.balance + (if a.account_id = aid1 then d1 else 0) := by
  rw [mem_applyDelta] at ha'
  obtain ⟨a, ha, rfl⟩ := ha'
  refine ⟨a, ha, ?_, ?_⟩ <;> by_cases h1 : a.account_id = aid1 <;> simp [h1]

/-- Unpacking membership in two stacked applyDelta passes. -/
theorem mem_applyDelta2 (aid1 : Nat) (d1 : Int) (aid2 : Nat) (d2 : Int)
    (accs : List Account) (a' : Account)
    (ha' : a' ∈ applyDelta aid2 d2 (applyDelta aid1 d1 accs)) :
    ∃ a ∈ accs, a'.account_id = a.account_id ∧
      a'.balance = a.balance + (if a.account_id = aid1 then d1 else 0)
        + (if a.account_id = aid2 then d2 else 0) := by
  obtain ⟨a1, ha1, hid1, hb1⟩ := mem_applyDelta1 aid2 d2 _ a' ha'
  obtain ⟨a, ha, hid0, hb0⟩ := mem_applyDelta1 aid1 d1 accs a1 ha1
  refine ⟨a, ha, hid1.trans hid0, ?_⟩
  rw [hb1, hb0, hid0]

theorem adjust_normal_eq (db : DB) (inst old : Transaction)
    (hfind : findTxn db inst.txn_id = some old)
    (htu : old.transfer_uuid = none) :
    adjust_balance_on_update db inst false
      = .ok (some (.normal
          (if (if old.account ≠ inst.account then -(effect old) else 0) ≠ 0
              then some old.account else none)
          inst.account
          (if old.account ≠ inst.account then -(effect old) else 0)
          (if old.account ≠ inst.account then effect inst
           else effect inst - effect old))) := by
  unfold adjust_balance_on_update
  simp only [Bool.false_eq_true, if_false, hfind, htu, effect]

theorem save_existing_normal_eq (db : DB) (inst old : Transaction)
    (hfind : findTxn db inst.txn_id = some old)
    (htu : old.transfer_uuid = none) :
    save_existing db inst = .ok { db with
      txns := replaceTxn inst db.txns,
      accounts := applyDelta inst.account
          (if old.account ≠ inst.account then effect inst else effect inst - effect old)
          (applyDelta old.account
            (if old.account ≠ inst.account then -(effect old) else 0) db.accounts) } := by
  unfold save_existing
  rw [adjust_normal_eq db inst old hfind htu]
  by_cases hd : (if old.account ≠ inst.account then -(effect old) else 0) ≠ 0
  · rw [if_pos hd]
    rfl
  · rw [if_neg hd]
    rw [not_not] at hd
    rw [hd, applyDelta_zero]
    rfl

theorem save_existing_inv_normal (db : DB) (inst old : Transaction) (db1 : DB)
    (hInv : Inv db)
    (hfind : findTxn db inst.txn_id = some old)
    (htu : old.transfer_uuid = none)
    (hok : save_existing db inst = .ok db1) : Inv db1 := by
  obtain ⟨hbal, hfresh, hnd⟩ := hInv
  rw [save_existing_normal_eq db inst old hfind htu] at hok
  obtain rfl : _ = db1 := Except.ok.inj hok
  have hmem : old ∈ db.txns := List.mem_of_find?_eq_some hfind
  have hpk : old.txn_id = inst.txn_id := by
    have := List.find?_some hfind
    simpa using this
  refine ⟨?_, ?_, ?_⟩
  · intro a' ha'
    obtain ⟨a, ha, hid, hbal'⟩ := mem_applyDelta2 _ _ _ _ _ _ ha'
    have hb := hbal a ha
    have hsum := txnSum_replaceTxn a.account_id inst old db.txns hmem hpk hnd
    show a'.balance = txnSum a'.account_id (replaceTxn inst db.txns)
    rw [hbal', hid, hsum, ← hb]
    split_ifs <;> omega
  · show ∀ t ∈ replaceTxn inst db.txns, t.txn_id < db.nextTxnId
    rw [pkFresh_iff, replaceTxn_map_txn_id, ← pkFresh_iff]
    exact hfresh
  · show (List.map Transaction.txn_id (replaceTxn inst db.txns)).Nodup
    rw [replaceTxn_map_txn_id]
    exact hnd

/-! ### Transfer-branch characterizations -/

theorem filter_singleton_mem {p : Transaction → Bool} {legs : List Transaction}
    {o : Transaction} (h : legs.filter p = [o]) : o ∈ legs ∧ p o = true := by
  have hm : o ∈ legs.filter p := by rw [h]; exact List.mem_cons_self o []
  exact ⟨(List.mem_filter.mp hm).1, (List.mem_filter.mp hm).2⟩

theorem expense_income_pk_ne (txns : List Transaction)
    (hnd : (txns.map Transaction.txn_id).Nodup) (o i : Transaction)
    (ho : o ∈ txns) (hi : i ∈ txns)
    (hoe : o.is_expense = true) (hio : i.is_income = true) : o.txn_id ≠ i.txn_id := by
  intro h
  have heq := eq_of_mem_pk txns hnd o i ho hi h
  subst heq
  unfold Transaction.is_expense at hoe
  unfold Transaction.is_income at hio
  rw [decide_eq_true_eq] at hoe hio
  rw [hoe] at hio
  exact absurd hio (by decide)

theorem legs_two_cases (legs : List Transaction) (o i : Transaction)
    (hlen : legs.length = 2)
    (hexp : legs.filter (fun t => t.is_expense) = [o])
    (hinc : legs.filter (fun t => t.is_income) = [i]) :
    legs = [o, i] ∨ legs = [i, o] := by
  have hni : ∀ t : Transaction, t.is_income = !t.is_expense := by
    intro t; rw [is_expense_eq_not_is_income, Bool.not_not]
  rcases legs with _ | ⟨a, rest⟩
  · simp at hlen
  rcases rest with _ | ⟨b, rest2⟩
  · simp at hlen
  rcases rest2 with _ | ⟨c, rest3⟩
  · by_cases ha : a.is_expense <;> by_cases hb : b.is_expense
    · simp only [List.filter_cons, List.filter_nil, ha, hb, if_true] at hexp
      exact absurd hexp (by simp)
    · simp only [List.filter_cons, List.filter_nil, ha, hb, hni, Bool.not_true,
        Bool.not_false, if_true, if_false, Bool.false_eq_true] at hexp hinc
      injection hexp with h1 _
      injection hinc with h2 _
      subst h1; subst h2
      exact Or.inl rfl
    · simp only [List.filter_cons, List.filter_nil, ha, hb, hni, Bool.not_true,
        Bool.not_false, if_true, if_false, Bool.false_eq_true] at hexp hinc
      injection hexp with h1 _
      injection hinc with h2 _
      subst h1; subst h2
      exact Or.inr rfl
    · simp only [List.filter_cons, List.filter_nil, ha, hb, if_false,
        Bool.false_eq_true] at hexp
      exact absurd hexp (by simp)
  · exfalso
    simp only [List.length_cons] at hlen
    omega

theorem adjust_transfer_eq (db : DB) (inst old : Transaction) (tu : Nat)
    (o i : Transaction)
    (hfind : findTxn db inst.txn_id = some old)
    (htu : old.transfer_uuid = some tu)
    (hlen : (transferLegs db inst.userId tu).length = 2)
    (hexp : (transferLegs db inst.userId tu).filter (fun t => t.is_expense) = [o])
    (hinc : (transferLegs db inst.userId tu).filter (fun t => t.is_income) = [i]) :
    adjust_balance_on_update db inst false
      = .ok (some (.transfer o.account
          (if inst.txn_id = o.txn_id then effect inst - effect o else 0)
          i.account
          (if inst.txn_id = i.txn_id then effect inst - effect i else 0))) := by
  simp only [adjust_balance_on_update, Bool.false_eq_true, if_false, hfind, htu, hlen,
    ne_eq, not_true_eq_false, hexp, hinc, effect]

theorem adjust_transfer_err (db : DB) (inst old : Transaction) (tu : Nat)
    (hfind : findTxn db inst.txn_id = some old)
    (htu : old.transfer_uuid = some tu)
    (hlen : (transferLegs db inst.userId tu).length = 2)
    (hexp : (transferLegs db inst.userId tu).filter (fun t => t.is_expense) = []) :
    adjust_balance_on_update db inst false = .error .doesNotExist := by
  simp only [adjust_balance_on_update, Bool.false_eq_true, if_false, hfind, htu, hlen,
    ne_eq, not_true_eq_false, hexp]

theorem save_existing_transfer_eq (db : DB) (inst old : Transaction) (tu : Nat)
    (o i : Transaction)
    (hfind : findTxn db inst.txn_id = some old)
    (htu : old.transfer_uuid = some tu)
    (hlen : (transferLegs db inst.userId tu).length = 2)
    (hexp : (transferLegs db inst.userId tu).filter (fun t => t.is_expense) = [o])
    (hinc : (transferLegs db inst.userId tu).filter (fun t => t.is_income) = [i]) :
    save_existing db inst = .ok { db with
      txns := replaceTxn inst db.txns,
      accounts := applyDelta i.account
          (if inst.txn_id = i.txn_id then effect inst - effect i else 0)
        (applyDelta o.account
          (if inst.txn_id = o.txn_id then effect inst - effect o else 0) db.accounts) } := by
  unfold save_existing
  rw [adjust_transfer_eq db inst old tu o i hfind htu hlen hexp hinc]
  rfl

theorem save_existing_inv_transfer (db : DB) (inst old : Transaction) (tu : Nat)
    (o i : Transaction) (db1 : DB) (hInv : Inv db)
    (hfind : findTxn db inst.txn_id = some old)
    (htu : old.transfer_uuid = some tu)
    (huser : inst.userId = old.userId)
    (hacc : inst.account = old.account)
    (hlen : (transferLegs db inst.userId tu).length = 2)
    (hexp : (transferLegs db inst.userId tu).filter (fun t => t.is_expense) = [o])
    (hinc : (transferLegs db inst.userId tu).filter (fun t => t.is_income) = [i])
    (hok : save_existing db inst = .ok db1) : Inv db1 := by
  obtain ⟨hbal, hfresh, hnd⟩ := hInv
  rw [save_existing_transfer_eq db inst old tu o i hfind htu hlen hexp hinc] at hok
  obtain rfl : _ = db1 := Except.ok.inj hok
  have hmem : old ∈ db.txns := List.mem_of_find?_eq_some hfind
  have hpk : old.txn_id = inst.txn_id := by
    have := List.find?_some hfind
    simpa using this
  obtain ⟨hoL, hoe⟩ := filter_singleton_mem hexp
  obtain ⟨hiL, hio⟩ := filter_singleton_mem hinc
  have hoT : o ∈ db.txns := ((mem_transferLegs db inst.userId tu o).mp hoL).1
  have hiT : i ∈ db.txns := ((mem_transferLegs db inst.userId tu i).mp hiL).1
  have hpkoi : o.txn_id ≠ i.txn_id := expense_income_pk_ne db.txns hnd o i hoT hiT hoe hio
  -- old is itself one of the two legs
  have holdL : old ∈ transferLegs db inst.userId tu := by
    rw [mem_transferLegs]
    exact ⟨hmem, htu, huser.symm⟩
  have holdcase : old = o ∨ old = i := by
    rcases legs_two_cases _ o i hlen hexp hinc with h2 | h2 <;> rw [h2] at holdL <;>
      simp at holdL <;> tauto
  refine ⟨?_, ?_, ?_⟩
  · intro a' ha'
    obtain ⟨a, ha, hid, hbal'⟩ := mem_applyDelta2 _ _ _ _ _ _ ha'
    have hb := hbal a ha
    have hsum := txnSum_replaceTxn a.account_id inst old db.txns hmem hpk hnd
    show a'.balance = txnSum a'.account_id (replaceTxn inst db.txns)
    rw [hbal', hid, hsum, ← hb]
    rcases holdcase with rfl | rfl
    · have h1 : inst.txn_id = old.txn_id := hpk.symm
      have h2 : inst.txn_id ≠ i.txn_id := fun hc => hpkoi (h1 ▸ hc)
      rw [if_pos h1, if_neg h2, hacc]
      split_ifs <;> omega
    · have h1 : inst.txn_id = old.txn_id := hpk.symm
      have h2 : inst.txn_id ≠ o.txn_id := fun hc => hpkoi (hc ▸ h1.symm ▸ rfl)
      rw [if_pos h1, if_neg h2, hacc]
      split_ifs <;> omega
  · show ∀ t ∈ replaceTxn inst db.txns, t.txn_id < db.nextTxnId
    rw [pkFresh_iff, replaceTxn_map_txn_id, ← pkFresh_iff]
    exact hfresh
  · show (List.map Transaction.txn_id (replaceTxn inst db.txns)).Nodup
    rw [replaceTxn_map_txn_id]
    exact hnd

/-! ### Delete-path characterizations -/

theorem txnSum_filter_not (aid : Nat) (p : Transaction → Bool) (ts : List Transaction) :
    txnSum aid (ts.filter (fun t => !(p t))) = txnSum aid ts - txnSum aid (ts.filter p) := by
  have h := txnSum_partition aid p ts
  omega

theorem revert_transfer_unfold (db : DB) (accs : List Account) (t : Transaction)
    (user tu : Nat) (htu : t.transfer_uuid = some tu) (huser : t.userId = user) :
    revert_balance_on_delete { db with accounts := accs } t
      = match ((transferLegs db user tu).filter (fun x => x.is_expense)).head? with
        | none => .error .attrError
        | some outgoing =>
          if t.txn_id ≠ outgoing.txn_id then .ok accs
          else .ok ((transferLegs db user tu).foldl
            (fun ac tx => applyDelta tx.account (-(sign tx * tx.amount)) ac) accs) := by
  have htx : transferLegs { db with accounts := accs } t.userId tu
      = transferLegs db user tu := by rw [huser]; rfl
  simp only [revert_balance_on_delete, htu, htx]

theorem runPreDeletes_driver (db : DB) (user tu : Nat) (o : Transaction)
    (hexp : ((transferLegs db user tu).filter (fun t => t.is_expense)).head? = some o) :
    ∀ (l : List Transaction) (accs : List Account),
      (∀ t ∈ l, t.transfer_uuid = some tu ∧ t.userId = user) →
      ((l.map Transaction.txn_id).Nodup) →
      runPreDeletes db l accs =
        ((if l.any (fun t => t.txn_id == o.txn_id)
          then (transferLegs db user tu).foldl
            (fun ac tx => applyDelta tx.account (-(sign tx * tx.amount)) ac) accs
          else accs), none) := by
  intro l
  induction l with
  | nil => intro accs _ _; simp [runPreDeletes]
  | cons t ts ih =>
    intro accs hmem hnd
    obtain ⟨htu, huser⟩ := hmem t (List.mem_cons_self t ts)
    simp only [List.map_cons, List.nodup_cons] at hnd
    have hstep : runPreDeletes db (t :: ts) accs =
        match revert_balance_on_delete { db with accounts := accs } t with
        | .error e => (accs, some e)
        | .ok accs1 => runPreDeletes db ts accs1 := rfl
    rw [hstep, revert_transfer_unfold db accs t user tu htu huser]
    by_cases hpk : t.txn_id = o.txn_id
    · have hts : ts.any (fun x => x.txn_id == o.txn_id) = false := by
        rw [List.any_eq_false]
        intro x hx
        simp only [beq_iff_eq]
        intro hc
        have hm : x.txn_id ∈ ts.map Transaction.txn_id :=
          List.mem_map_of_mem Transaction.txn_id hx
        rw [hc, ← hpk] at hm
        exact hnd.1 hm
      simp only [hexp, hpk, ne_eq, not_true_eq_false, if_false, ite_false]
      rw [ih _ (fun u hu => hmem u (List.mem_cons_of_mem t hu)) hnd.2, hts]
      simp only [List.any_cons, hpk, beq_self_eq_true, Bool.true_or, Bool.false_eq_true,
        ite_false, ite_true]
    · simp only [hexp, ne_eq, hpk, not_false_eq_true, ite_true]
      rw [ih _ (fun u hu => hmem u (List.mem_cons_of_mem t hu)) hnd.2]
      have hbeq : (t.txn_id == o.txn_id) = false := by simp [hpk]
      simp only [List.any_cons, hbeq, Bool.false_or]

theorem runPreDeletes_noexpense (db : DB) (user tu : Nat)
    (hexp : ((transferLegs db user tu).filter (fun t => t.is_expense)).head? = none)
    (t : Transaction) (ts : List Transaction) (accs : List Account)
    (htu : t.transfer_uuid = some tu) (huser : t.userId = user) :
    runPreDeletes db (t :: ts) accs = (accs, some .attrError) := by
  have hstep : runPreDeletes db (t :: ts) accs =
      match revert_balance_on_delete { db with accounts := accs } t with
      | .error e => (accs, some e)
      | .ok accs1 => runPreDeletes db ts accs1 := rfl
  rw [hstep, revert_transfer_unfold db accs t user tu htu huser, hexp]

theorem find?_user_props (db : DB) (user txnId : Nat) (inst : Transaction)
    (hfind : db.txns.find? (fun t => t.txn_id == txnId && t.userId == user) = some inst) :
    inst ∈ db.txns ∧ inst.txn_id = txnId ∧ inst.userId = user := by
  refine ⟨List.mem_of_find?_eq_some hfind, ?_, ?_⟩ <;>
  · have h := List.find?_some hfind
    simp only [Bool.and_eq_true, beq_iff_eq] at h
    tauto

theorem destroy_transfer_eq (db : DB) (user txnId : Nat) (inst : Transaction) (tu : Nat)
    (o : Transaction)
    (hfind : db.txns.find? (fun t => t.txn_id == txnId && t.userId == user) = some inst)
    (htu : inst.transfer_uuid = some tu)
    (hnd : PkNodup db)
    (hexp : ((transferLegs db user tu).filter (fun t => t.is_expense)).head? = some o) :
    TransactionViewSet.destroy db user txnId =
      ({ db with
          accounts := db.accounts.map (fun a =>
            { a with balance := a.balance - txnSum a.account_id (transferLegs db user tu) }),
          txns := db.txns.filter (fun t =>
            !(t.transfer_uuid == some tu && t.userId == user)) }, none) := by
  have hmemlegs : ∀ t ∈ transferLegs db user tu,
      t.transfer_uuid = some tu ∧ t.userId = user := by
    intro t ht
    have := (mem_transferLegs db user tu t).mp ht
    exact ⟨this.2.1, this.2.2⟩
  have hndlegs : ((transferLegs db user tu).map Transaction.txn_id).Nodup :=
    hnd.sublist ((List.filter_sublist _).map Transaction.txn_id)
  have hoF : o ∈ (transferLegs db user tu).filter (fun t => t.is_expense) :=
    List.mem_of_mem_head? (by rw [Option.mem_def, hexp])
  have ho : o ∈ transferLegs db user tu := (List.mem_filter.mp hoF).1
  have hany : (transferLegs db user tu).any (fun t => t.txn_id == o.txn_id) = true :=
    List.any_eq_true.mpr ⟨o, ho, by simp⟩
  unfold TransactionViewSet.destroy
  simp only [hfind, htu]
  rw [runPreDeletes_driver db user tu o hexp _ db.accounts hmemlegs hndlegs, hany]
  simp only [ite_true]
  rw [foldl_applyDelta]
  simp only [sum_map_neg_effect, ← sub_eq_add_neg]

theorem destroy_transfer_attr_eq (db : DB) (user txnId : Nat) (inst : Transaction)
    (tu : Nat)
    (hfind : db.txns.find? (fun t => t.txn_id == txnId && t.userId == user) = some inst)
    (htu : inst.transfer_uuid = some tu)
    (hexp : ((transferLegs db user tu).filter (fun t => t.is_expense)).head? = none) :
    TransactionViewSet.destroy db user txnId = (db, some (.sig .attrError)) := by
  obtain ⟨hmemT, hpkT, huserT⟩ := find?_user_props db user txnId inst hfind
  have hinstL : inst ∈ transferLegs db user tu :=
    (mem_transferLegs db user tu inst).mpr ⟨hmemT, htu, huserT⟩
  unfold TransactionViewSet.destroy
  simp only [hfind, htu]
  cases hlegs : transferLegs db user tu with
  | nil => rw [hlegs] at hinstL; cases hinstL
  | cons t0 rest =>
    have ht0 : t0 ∈ transferLegs db user tu := by
      rw [hlegs]; exact List.mem_cons_self t0 rest
    obtain ⟨_, htu0, huser0⟩ := (mem_transferLegs db user tu t0).mp ht0
    rw [runPreDeletes_noexpense db user tu hexp t0 rest db.accounts htu0 huser0]

theorem destroy_normal_eq (db : DB) (user txnId : Nat) (inst : Transaction)
    (hfind : db.txns.find? (fun t => t.txn_id == txnId && t.userId == user) = some inst)
    (htu : inst.transfer_uuid = none) :
    TransactionViewSet.destroy db user txnId =
      ({ db with
          accounts := applyDelta inst.account (-(sign inst * inst.amount)) db.accounts,
          txns := db.txns.filter (fun t => !(t.txn_id == inst.txn_id)) }, none) := by
  unfold TransactionViewSet.destroy
  simp only [hfind, htu, revert_balance_on_delete]

/-! ### Update-path helpers -/

theorem replaceTxn_length (inst : Transaction) (l : List Transaction) :
    (replaceTxn inst l).length = l.length := by
  unfold replaceTxn
  rw [List.length_map]

theorem length_filter_partition (p : Transaction → Bool) (l : List Transaction) :
    (l.filter p).length + (l.filter (fun t => !(p t))).length = l.length := by
  induction l with
  | nil => rfl
  | cons t ts ih =>
    by_cases hp : p t <;> simp only [List.filter_cons, hp, Bool.not_true, Bool.not_false,
      if_true, if_false, Bool.false_eq_true, ite_true, ite_false, List.length_cons] <;> omega

theorem filter_income_eq_not_expense (l : List Transaction) :
    l.filter (fun t => t.is_income) = l.filter (fun t => !(t.is_expense)) := by
  induction l with
  | nil => rfl
  | cons t ts ih =>
    rw [List.filter_cons, List.filter_cons, ih]
    have h : t.is_income = !t.is_expense := by
      rw [is_expense_eq_not_is_income, Bool.not_not]
    rw [h]

theorem adjust_transfer_err2 (db : DB) (inst old : Transaction) (tu : Nat)
    (x x2 : Transaction) (xtl : List Transaction)
    (hfind : findTxn db inst.txn_id = some old)
    (htu : old.transfer_uuid = some tu)
    (hlen : (transferLegs db inst.userId tu).length = 2)
    (hexp : (transferLegs db inst.userId tu).filter (fun t => t.is_expense)
      = x :: x2 :: xtl) :
    adjust_balance_on_update db inst false = .error .doesNotExist := by
  simp only [adjust_balance_on_update, Bool.false_eq_true, if_false, hfind, htu, hlen,
    ne_eq, not_true_eq_false, hexp]

/-- Saving the partner leg of a transfer (same pk, user, account and uuid as an
existing leg, with the two-leg resolution succeeding) keeps the invariant; when
the legs of the pair no longer split into one expense and one income leg the
pre_save handler raises instead, so a successful save implies the good split. -/
theorem save_existing_inv_partner (db1 : DB) (inst2 i : Transaction) (tu : Nat)
    (db2 : DB) (hInv1 : Inv db1)
    (hfind1 : findTxn db1 inst2.txn_id = some i)
    (hiuuid : i.transfer_uuid = some tu)
    (husr2 : inst2.userId = i.userId)
    (hacc2 : inst2.account = i.account)
    (hlen1 : (transferLegs db1 inst2.userId tu).length = 2)
    (hok : save_existing db1 inst2 = .ok db2) : Inv db2 := by
  have hcount := length_filter_partition (fun t => t.is_expense)
    (transferLegs db1 inst2.userId tu)
  rw [← filter_income_eq_not_expense, hlen1] at hcount
  rcases hfe2 : (transferLegs db1 inst2.userId tu).filter (fun t => t.is_expense)
    with _ | ⟨x, _ | ⟨x2, xtl⟩⟩
  · exfalso
    have herr := adjust_transfer_err db1 inst2 i tu hfind1 hiuuid hlen1 hfe2
    unfold save_existing at hok
    rw [herr] at hok
    cases hok
  · rcases hfi2 : (transferLegs db1 inst2.userId tu).filter (fun t => t.is_income)
      with _ | ⟨y, _ | ⟨y2, ytl⟩⟩
    · exfalso
      rw [hfe2, hfi2] at hcount
      simp at hcount
    · exact save_existing_inv_transfer db1 inst2 i tu x y db2 hInv1 hfind1 hiuuid
        husr2 hacc2 hlen1 hfe2 hfi2 hok
    · exfalso
      rw [hfe2, hfi2] at hcount
      simp only [List.length_cons, List.length_singleton] at hcount
      omega
  · exfalso
    have herr := adjust_transfer_err2 db1 inst2 i tu x x2 xtl hfind1 hiuuid hlen1 hfe2
    unfold save_existing at hok
    rw [herr] at hok
    cases hok

theorem inv_of_components (db1 db : DB) (ha : db1.accounts = db.accounts)
    (ht : db1.txns = db.txns) (hn : db1.nextTxnId = db.nextTxnId) (h : Inv db) :
    Inv db1 := by
  obtain ⟨hb, hf, hd⟩ := h
  refine ⟨?_, ?_, ?_⟩
  · intro a hA
    rw [ha] at hA
    show a.balance = txnSum a.account_id db1.txns
    rw [ht]
    exact hb a hA
  · intro t hT
    rw [ht] at hT
    show t.txn_id < db1.nextTxnId
    rw [hn]
    exact hf t hT
  · show (db1.txns.map Transaction.txn_id).Nodup
    rw [ht]
    exact hd

theorem get_or_create_preserves (db : DB) (user : Nat) :
    (get_or_create_transfer_in db user).1.accounts = db.accounts
    ∧ (get_or_create_transfer_in db user).1.txns = db.txns
    ∧ (get_or_create_transfer_in db user).1.nextTxnId = db.nextTxnId := by
  unfold get_or_create_transfer_in
  cases db.categories.find? (fun c =>
      c.userId == user && c.name == "Transfer In" && decide (c.ctype = CatType.income)) with
  | none => exact ⟨rfl, rfl, rfl⟩
  | some c => exact ⟨rfl, rfl, rfl⟩

/-! ### Invariant preservation of the public operations -/

theorem create_inv (db : DB) (user account : Nat) (category : Category) (amount : Int)
    (dsc : String) (dt : Int) (transfer : Option TransferInfo) (hInv : Inv db) :
    Inv (TransactionSerializer.create db user account category amount dsc dt transfer).1 := by
  unfold TransactionSerializer.create
  cases hval : validate_attrs db user (some category) (some account) with
  | some e => simp only [hval]; exact hInv
  | none =>
    simp only [hval]
    cases transfer with
    | none => exact objects_create_inv db user account category amount dsc dt none hInv
    | some info =>
      cases hto : findAccount db info.to_account with
      | none => simp only [hto]; exact hInv
      | some to_account =>
        simp only [hto]
        by_cases hu : to_account.userId ≠ user
        · rw [if_pos hu]; exact hInv
        · rw [if_neg hu]
          by_cases hc : category.ctype ≠ CatType.expense
          · rw [if_pos hc]; exact hInv
          · rw [if_neg hc]
            cases hfrom : findAccount db account with
            | none => simp only [hfrom]; exact hInv
            | some from_account =>
              simp only [hfrom]
              apply objects_create_inv
              apply objects_create_inv
              obtain ⟨ha, ht, hn⟩ :=
                get_or_create_preserves { db with nextUuid := db.nextUuid + 1 } user
              exact inv_of_components _ db ha ht hn hInv

theorem destroy_inv (db : DB) (user txnId : Nat) (hInv : Inv db) :
    Inv (TransactionViewSet.destroy db user txnId).1 := by
  obtain ⟨hbal, hfresh, hnd⟩ := hInv
  cases hfind : db.txns.find? (fun t => t.txn_id == txnId && t.userId == user) with
  | none =>
    unfold TransactionViewSet.destroy
    simp only [hfind]
    exact ⟨hbal, hfresh, hnd⟩
  | some inst =>
    obtain ⟨hmemT, hpkT, huserT⟩ := find?_user_props db user txnId inst hfind
    cases htu : inst.transfer_uuid with
    | none =>
      rw [destroy_normal_eq db user txnId inst hfind htu]
      refine ⟨?_, ?_, ?_⟩
      · intro a' ha'
        obtain ⟨a, ha, hid, hbal'⟩ := mem_applyDelta1 _ _ _ _ ha'
        show a'.balance
            = txnSum a'.account_id (db.txns.filter (fun t => !(t.txn_id == inst.txn_id)))
        rw [hbal', hid, txnSum_filter_not,
          filter_pk_eq_singleton db.txns inst hmemT hnd, ← hbal a ha,
          txnSum_cons, txnSum_nil]
        have heff : -(sign inst * inst.amount) = -(effect inst) := rfl
        rw [heff]
        split_ifs <;> omega
      · intro t ht
        exact hfresh t (List.mem_of_mem_filter ht)
      · exact hnd.sublist ((List.filter_sublist _).map Transaction.txn_id)
    | some tu =>
      cases hexp : ((transferLegs db user tu).filter (fun t => t.is_expense)).head? with
      | none =>
        rw [destroy_transfer_attr_eq db user txnId inst tu hfind htu hexp]
        exact ⟨hbal, hfresh, hnd⟩
      | some o =>
        rw [destroy_transfer_eq db user txnId inst tu o hfind htu hnd hexp]
        have hTL : transferLegs db user tu
            = db.txns.filter (fun t => t.transfer_uuid == some tu && t.userId == user) := rfl
        refine ⟨?_, ?_, ?_⟩
        · intro a' ha'
          rw [List.mem_map] at ha'
          obtain ⟨a, ha, rfl⟩ := ha'
          show a.balance - txnSum a.account_id (transferLegs db user tu)
              = txnSum a.account_id (db.txns.filter (fun t =>
                  !(t.transfer_uuid == some tu && t.userId == user)))
          rw [txnSum_filter_not, ← hbal a ha, hTL]
        · intro t ht
          exact hfresh t (List.mem_of_mem_filter ht)
        · exact hnd.sublist ((List.filter_sublist _).map Transaction.txn_id)

theorem update_inv (db : DB) (user txnId : Nat) (p : Patch) (hInv : Inv db) :
    Inv (TransactionViewSet.update db user txnId p).1 := by
  unfold TransactionViewSet.update
  cases hfind : db.txns.find? (fun t => t.txn_id == txnId && t.userId == user) with
  | none => simp only [hfind]; exact hInv
  | some inst =>
    simp only [hfind]
    obtain ⟨hmemT, hpkT, huserT⟩ := find?_user_props db user txnId inst hfind
    cases htu : inst.transfer_uuid with
    | none =>
      simp only [htu]
      cases hval : validate_attrs db user p.category p.account with
      | some e => simp only [hval]; exact hInv
      | none =>
        simp only [hval]
        cases hok : save_existing db (applyPatch inst p) with
        | error e => simp only [hok]; exact hInv
        | ok db1 =>
          simp only [hok]
          have hfind2 : findTxn db (applyPatch inst p).txn_id = some inst := by
            have hpk2 : (applyPatch inst p).txn_id = inst.txn_id := rfl
            show db.txns.find? (fun t => t.txn_id == (applyPatch inst p).txn_id) = some inst
            rw [hpk2]
            exact find?_pk_eq_of_mem_nodup db.txns inst hmemT hInv.2.2
          exact save_existing_inv_normal db (applyPatch inst p) inst db1 hInv hfind2 htu hok
    | some tu =>
      simp only [htu]
      by_cases haccp : p.account.isSome
      · rw [if_pos haccp]; exact hInv
      · rw [if_neg haccp]
        have haccnone : p.account = none := Option.not_isSome_iff_eq_none.mp haccp
        by_cases hlen : (transferLegs db user tu).length ≠ 2
        · rw [if_pos hlen]; exact hInv
        · rw [if_neg hlen]
          rw [not_not] at hlen
          have hnd := hInv.2.2
          rcases hfe : (transferLegs db user tu).filter (fun t => t.is_expense)
            with _ | ⟨o, _ | ⟨o2, otl⟩⟩ <;>
            rcases hfi : (transferLegs db user tu).filter (fun t => t.is_income)
              with _ | ⟨i, _ | ⟨i2, itl⟩⟩ <;>
            simp only [hfe, hfi] <;> try exact hInv
          cases hval : validate_attrs db user p.category p.account with
          | some e => simp only [hval]; exact hInv
          | none =>
            simp only [hval]
            obtain ⟨hoL, hoe⟩ := filter_singleton_mem hfe
            obtain ⟨hiL, hie⟩ := filter_singleton_mem hfi
            obtain ⟨hoT, houuid, housr⟩ := (mem_transferLegs db user tu o).mp hoL
            obtain ⟨hiT, hiuuid, hiusr⟩ := (mem_transferLegs db user tu i).mp hiL
            have hpkoi : o.txn_id ≠ i.txn_id :=
              expense_income_pk_ne db.txns hnd o i hoT hiT hoe hie
            have hfo : findTxn db (applyPatch o p).txn_id = some o := by
              show db.txns.find? (fun t => t.txn_id == (applyPatch o p).txn_id) = some o
              have hpk2 : (applyPatch o p).txn_id = o.txn_id := rfl
              rw [hpk2]
              exact find?_pk_eq_of_mem_nodup db.txns o hoT hnd
            have husrN : (applyPatch o p).userId = user := housr
            have hlenN : (transferLegs db (applyPatch o p).userId tu).length = 2 := by
              rw [husrN]; exact hlen
            have hfeN : (transferLegs db (applyPatch o p).userId tu).filter
                (fun t => t.is_expense) = [o] := by rw [husrN]; exact hfe
            have hfiN : (transferLegs db (applyPatch o p).userId tu).filter
                (fun t => t.is_income) = [i] := by rw [husrN]; exact hfi
            have haccN : (applyPatch o p).account = o.account := by
              simp [applyPatch, haccnone]
            cases hok1 : save_existing db (applyPatch o p) with
            | error e => simp only [hok1]; exact hInv
            | ok db1 =>
              simp only [hok1]
              have hInv1 : Inv db1 := save_existing_inv_transfer db (applyPatch o p) o tu
                o i db1 hInv hfo houuid rfl haccN hlenN hfeN hfiN hok1
              -- characterize db1 to locate the partner leg inside it
              have hdb1 : db1 = { db with
                  txns := replaceTxn (applyPatch o p) db.txns,
                  accounts := applyDelta i.account
                    (if (applyPatch o p).txn_id = i.txn_id
                      then effect (applyPatch o p) - effect i else 0)
                    (applyDelta o.account
                      (if (applyPatch o p).txn_id = o.txn_id
                        then effect (applyPatch o p) - effect o else 0) db.accounts) } := by
                have hs := save_existing_transfer_eq db (applyPatch o p) o tu o i hfo
                  houuid hlenN hfeN hfiN
                rw [hok1] at hs
                exact Except.ok.inj hs
              have htxns1 : db1.txns = replaceTxn (applyPatch o p) db.txns := by
                rw [hdb1]
              -- the partner row is unchanged in db1
              have hfi1 : findTxn db1 i.txn_id = some i := by
                show db1.txns.find? (fun t => t.txn_id == i.txn_id) = some i
                rw [htxns1, find?_replaceTxn_ne (applyPatch o p) db.txns i.txn_id
                  (by intro hc; exact hpkoi (hc.symm))]
                exact find?_pk_eq_of_mem_nodup db.txns i hiT hnd
              -- the legs of db1 still number two
              have hlegs1 : transferLegs db1 user tu
                  = replaceTxn (applyPatch o p) (transferLegs db user tu) := by
                show db1.txns.filter (fun t =>
                    t.transfer_uuid == some tu && t.userId == user)
                  = replaceTxn (applyPatch o p) (transferLegs db user tu)
                rw [htxns1]
                apply filter_replaceTxn
                intro t ht hpk2
                have hto : t = o := eq_of_mem_pk db.txns hnd t o ht hoT hpk2
                rw [hto]
                rfl
              have hlen1 : (transferLegs db1 user tu).length = 2 := by
                rw [hlegs1, replaceTxn_length]
                exact hlen
              split
              · -- mirror save raised: state stays at db1
                exact hInv1
              · -- mirror save succeeded
                rename_i db2 heq2
                refine save_existing_inv_partner db1 _ i tu db2 hInv1 ?_ hiuuid ?_ ?_ ?_ heq2
                · show findTxn db1 i.txn_id = some i
                  exact hfi1
                · rfl
                · rfl
                · show (transferLegs db1 i.userId tu).length = 2
                  rw [hiusr]
                  exact hlen1

/-! ### Remaining small helpers for the claim instances -/

theorem sign_of_expense (t : Transaction) (h : t.is_expense = true) : sign t = -1 := by
  unfold Transaction.is_expense at h
  rw [decide_eq_true_eq] at h
  unfold sign
  rw [h]
  decide

theorem sign_of_income (t : Transaction) (h : t.is_income = true) : sign t = 1 := by
  unfold Transaction.is_income at h
  rw [decide_eq_true_eq] at h
  unfold sign
  rw [h]
  decide

theorem find?_replaceTxn_eq (inst : Transaction) (txns : List Transaction)
    (old : Transaction)
    (h : txns.find? (fun t => t.txn_id == inst.txn_id) = some old) :
    (replaceTxn inst txns).find? (fun t => t.txn_id == inst.txn_id) = some inst := by
  induction txns with
  | nil => cases h
  | cons t ts ih =>
    have hshow : replaceTxn inst (t :: ts)
        = (if t.txn_id == inst.txn_id then inst else t) :: replaceTxn inst ts := rfl
    rw [hshow]
    by_cases hpk : t.txn_id = inst.txn_id
    · rw [if_pos (by simp [hpk])]
      exact List.find?_cons_of_pos _ (by simp)
    · rw [if_neg (by simp [hpk])]
      rw [List.find?_cons_of_neg _ (by simp [hpk])]
      rw [List.find?_cons_of_neg _ (by simp [hpk])] at h
      exact ih h

theorem find?_balance_map (g : Account → Int) (accs : List Account) (k : Nat) :
    (accs.map (fun a => { a with balance := g a })).find? (fun a => a.account_id == k)
      = (accs.find? (fun a => a.account_id == k)).map (fun a => { a with balance := g a }) := by
  induction accs with
  | nil => rfl
  | cons a l ih =>
    rw [List.map_cons]
    by_cases hk : a.account_id = k
    · rw [List.find?_cons_of_pos _ (by simp [hk]), List.find?_cons_of_pos _ (by simp [hk])]
      rfl
    · rw [List.find?_cons_of_neg _ (by simp [hk]), List.find?_cons_of_neg _ (by simp [hk])]
      exact ih

theorem find?_pk_user_eq_of_mem_nodup (txns : List Transaction) (inst : Transaction)
    (user : Nat) (hmem : inst ∈ txns) (hnd : (txns.map Transaction.txn_id).Nodup)
    (huser : inst.userId = user) :
    txns.find? (fun t => t.txn_id == inst.txn_id && t.userId == user) = some inst := by
  induction txns with
  | nil => cases hmem
  | cons t ts ih =>
    simp only [List.map_cons, List.nodup_cons] at hnd
    rcases List.mem_cons.mp hmem with rfl | hmem'
    · exact List.find?_cons_of_pos _ (by simp [huser])
    · have hne : t.txn_id ≠ inst.txn_id := fun h => by
        have hm : inst.txn_id ∈ ts.map Transaction.txn_id :=
          List.mem_map_of_mem Transaction.txn_id hmem'
        rw [← h] at hm
        exact hnd.1 hm
      rw [List.find?_cons_of_neg _ (by simp [hne])]
      exact ih hmem' hnd.2

theorem get_or_create_cat_props (db : DB) (user : Nat) :
    (get_or_create_transfer_in db user).2.userId = user
    ∧ (get_or_create_transfer_in db user).2.name = "Transfer In"
    ∧ (get_or_create_transfer_in db user).2.ctype = CatType.income := by
  unfold get_or_create_transfer_in
  cases hq : db.categories.find? (fun c =>
      c.userId == user && c.name == "Transfer In" && decide (c.ctype = CatType.income)) with
  | some c =>
    have hp := List.find?_some hq
    simp only [Bool.and_eq_true, beq_iff_eq, decide_eq_true_eq] at hp
    simp only [hq]
    exact ⟨hp.1.1, hp.1.2, hp.2⟩
  | none => simp [hq]

theorem get_or_create_idempotent (db : DB) (user : Nat) :
    get_or_create_transfer_in (get_or_create_transfer_in db user).1 user
      = ((get_or_create_transfer_in db user).1, (get_or_create_transfer_in db user).2) := by
  unfold get_or_create_transfer_in
  cases hq : db.categories.find? (fun c =>
      c.userId == user && c.name == "Transfer In" && decide (c.ctype = CatType.income)) with
  | some c => simp only [hq]
  | none =>
    simp only [hq]
    rw [List.find?_cons_of_pos _ (by simp)]

/-! ### Claim instances -/

/-- Claim C1: Balance invariant — for every account, after every committed mutation
through the public operations (transaction create, including both legs of a
transfer; update, including a mirrored transfer update; delete, including paired
transfer deletion), the cached balance equals the sum of
effect(t) = (+1 if income else -1) * amount over all transactions referencing
that account (together with the primary-key well-formedness the operations keep). -/
theorem C1_balance_invariant (db : DB) (hInv : Inv db)
    (user account txnId : Nat) (category : Category) (amount : Int)
    (description : String) (txn_date : Int) (transfer : Option TransferInfo)
    (p : Patch) :
    Inv (TransactionSerializer.create db user account category amount description
          txn_date transfer).1
    ∧ Inv (TransactionViewSet.update db user txnId p).1
    ∧ Inv (TransactionViewSet.destroy db user txnId).1 :=
  ⟨create_inv db user account category amount description txn_date transfer hInv,
   update_inv db user txnId p hInv,
   destroy_inv db user txnId hInv⟩

/-- Witness for C1 at the concrete example database. -/
theorem C1_balance_invariant_witness :
    Inv (TransactionSerializer.create dbW 1 1 catFood 50 "w" 0 none).1
    ∧ Inv (TransactionViewSet.update dbW 1 3 patchAmt450).1
    ∧ Inv (TransactionViewSet.destroy dbW 1 3).1 :=
  C1_balance_invariant dbW
    (by unfold Inv BalanceInv PkFresh PkNodup; decide) 1 1 3 catFood 50 "w" 0 none
    patchAmt450

/-- Claim C6: Delta Engine reference definition for non-transfer mutations — on
create the new row's signed effect is applied to its account; on an update with
unchanged account the delta is effect(new) - effect(old) on that account; on an
update with changed account two independent deltas -effect(old) on the old
account and +effect(new) on the new account are applied; on delete the delta is
-effect(old) on the old account. -/
theorem C6_delta_engine (db : DB) (inst old : Transaction) (u aid : Nat)
    (cat : Category) (amt : Int) (dsc : String) (dt : Int) (tuid : Option Nat)
    (hfind : findTxn db inst.txn_id = some old)
    (htu : old.transfer_uuid = none) :
    ((objects_create db u aid cat amt dsc dt tuid).1.accounts
        = applyDelta aid (effect (objects_create db u aid cat amt dsc dt tuid).2)
            db.accounts)
    ∧ (old.account = inst.account →
        save_existing db inst = .ok { db with
          txns := replaceTxn inst db.txns,
          accounts := applyDelta inst.account (effect inst - effect old) db.accounts })
    ∧ (old.account ≠ inst.account →
        save_existing db inst = .ok { db with
          txns := replaceTxn inst db.txns,
          accounts := applyDelta inst.account (effect inst)
              (applyDelta old.account (-(effect old)) db.accounts) })
    ∧ (∀ t : Transaction, t.transfer_uuid = none →
        revert_balance_on_delete db t
          = .ok (applyDelta t.account (-(effect t)) db.accounts)) := by
  refine ⟨rfl, ?_, ?_, ?_⟩
  · intro hsame
    rw [save_existing_normal_eq db inst old hfind htu,
      if_neg (not_not_intro hsame), if_neg (not_not_intro hsame), applyDelta_zero]
  · intro hdiff
    rw [save_existing_normal_eq db inst old hfind htu, if_pos hdiff, if_pos hdiff]
  · intro t ht
    simp only [revert_balance_on_delete, ht, effect]

/-- Witness for C6: updating the amount of the plain salary transaction. -/
theorem C6_delta_engine_witness :
    ((objects_create dbW 1 1 catFood 50 "w" 0 none).1.accounts
        = applyDelta 1 (effect (objects_create dbW 1 1 catFood 50 "w" 0 none).2)
            dbW.accounts)
    ∧ (txnSalary.account = ({ txnSalary with amount := 70 } : Transaction).account →
        save_existing dbW { txnSalary with amount := 70 }
          = .ok { dbW with
              txns := replaceTxn { txnSalary with amount := 70 } dbW.txns,
              accounts := applyDelta ({ txnSalary with amount := 70 } :
                  Transaction).account
                (effect { txnSalary with amount := 70 } - effect txnSalary)
                dbW.accounts })
    ∧ (txnSalary.account ≠ ({ txnSalary with amount := 70 } : Transaction).account →
        save_existing dbW { txnSalary with amount := 70 }
          = .ok { dbW with
              txns := replaceTxn { txnSalary with amount := 70 } dbW.txns,
              accounts := applyDelta ({ txnSalary with amount := 70 } :
                  Transaction).account
                (effect { txnSalary with amount := 70 })
                (applyDelta txnSalary.account (-(effect txnSalary)) dbW.accounts) })
    ∧ (∀ t : Transaction, t.transfer_uuid = none →
        revert_balance_on_delete dbW t
          = .ok (applyDelta t.account (-(effect t)) dbW.accounts)) :=
  C6_delta_engine dbW { txnSalary with amount := 70 } txnSalary 1 1 catFood 50 "w" 0
    none (by decide) (by decide)

/-- Claim C8: Immutable transfer account — an update request that names the
account field on a transaction that is a leg of a transfer is rejected with the
immutable-transfer-account error and neither rows nor balances are mutated. -/
theorem C8_immutable_transfer_account (db : DB) (user txnId tu : Nat) (p : Patch)
    (inst : Transaction)
    (hfind : db.txns.find? (fun t => t.txn_id == txnId && t.userId == user)
      = some inst)
    (htu : inst.transfer_uuid = some tu)
    (hacc : p.account.isSome = true) :
    TransactionViewSet.update db user txnId p
      = (db, some .immutableTransferAccount) := by
  unfold TransactionViewSet.update
  simp only [hfind, htu, hacc, if_true]

/-- Witness for C8: asking to move the outgoing leg of the example transfer. -/
theorem C8_immutable_transfer_account_witness :
    TransactionViewSet.update dbW 1 2 patchAcc
      = (dbW, some .immutableTransferAccount) :=
  C8_immutable_transfer_account dbW 1 2 100 patchAcc txnOut (by decide) (by decide)
    (by decide)

/-- Claim C9: the claim that stored amounts are always non-negative fails on the
code — the create path has no sign validation and stores a negative amount
verbatim — while the sign of the balance effect is indeed derived solely from
the category direction and never stored on the row. -/
theorem C9_negative_amount_stored :
    (TransactionSerializer.create dbW 1 1 catSalary (-50) "neg" 0 none).2
      = .ok { txn_id := 4, userId := 1, account := 1, category := catSalary,
              amount := -50, description := "neg", txn_date := 0,
              transfer_uuid := none }
    ∧ (∃ t ∈ (TransactionSerializer.create dbW 1 1 catSalary (-50) "neg" 0
          none).1.txns, t.amount < 0)
    ∧ (∀ t : Transaction,
        effect t = (if t.category.ctype = CatType.income then 1 else -1) * t.amount) :=
  ⟨rfl, by decide, fun t => rfl⟩

/-- Claim C5 counterexample: deleting transaction 10, whose non-null transfer
uuid 9 resolves to a single expense-direction row rather than one outgoing and
one incoming leg, succeeds with no corrupted-state error and mutates the
database, contradicting the claim that such an operation fails and performs no
mutation. -/
theorem C5_corrupted_state_counterexample :
    (TransactionViewSet.destroy dbC5 1 10).2 = none
    ∧ (TransactionViewSet.destroy dbC5 1 10).1 ≠ dbC5 := by
  decide

/-- Claim C5 amended: for an update of a transfer leg the operation does fail
with an error and performs no mutation when the uuid is corrupted (leg count
other than two, or two legs without exactly one expense-direction leg); for a
delete no corruption check is performed: whenever any expense-direction row
shares the uuid, every row of the acting user sharing it is deleted, with the
reversal pass driven once by the first expense-direction row, and only when no
expense-direction row exists does the operation raise an uncaught error with no
mutation. -/
theorem C5_corrupted_transfer_amended (db : DB) (user txnId tu : Nat)
    (inst : Transaction)
    (hfind : db.txns.find? (fun t => t.txn_id == txnId && t.userId == user)
      = some inst)
    (htu : inst.transfer_uuid = some tu) :
    ((transferLegs db user tu).length ≠ 2 →
      ∀ p : Patch, p.account = none →
        TransactionViewSet.update db user txnId p = (db, some .invalidTransferState))
    ∧ ((transferLegs db user tu).length = 2 →
      ((transferLegs db user tu).filter (fun t => t.is_expense)).length ≠ 1 →
      ∀ p : Patch, p.account = none →
        TransactionViewSet.update db user txnId p = (db, some (.sig .doesNotExist)))
    ∧ (∀ o, ((transferLegs db user tu).filter (fun t => t.is_expense)).head? = some o →
      PkNodup db →
      TransactionViewSet.destroy db user txnId
        = ({ db with
            accounts := db.accounts.map (fun a =>
              { a with balance :=
                  a.balance - txnSum a.account_id (transferLegs db user tu) }),
            txns := db.txns.filter (fun t =>
              !(t.transfer_uuid == some tu && t.userId == user)) }, none))
    ∧ (((transferLegs db user tu).filter (fun t => t.is_expense)).head? = none →
      TransactionViewSet.destroy db user txnId = (db, some (.sig .attrError))) := by
  refine ⟨?_, ?_, ?_, ?_⟩
  · intro hlen p hpa
    unfold TransactionViewSet.update
    simp only [hfind, htu]
    rw [if_neg (by simp [hpa]), if_pos hlen]
  · intro hlen hexplen p hpa
    unfold TransactionViewSet.update
    simp only [hfind, htu]
    rw [if_neg (by simp [hpa]), if_neg (not_not_intro hlen)]
    rcases hfe : (transferLegs db user tu).filter (fun t => t.is_expense)
      with _ | ⟨x, _ | ⟨x2, xtl⟩⟩ <;>
      rcases hfi : (transferLegs db user tu).filter (fun t => t.is_income)
        with _ | ⟨y, _ | ⟨y2, ytl⟩⟩ <;>
      simp only [hfe, hfi] <;>
      first
        | rfl
        | (exfalso; rw [hfe] at hexplen; simp at hexplen)
  · intro o hexp hnd
    exact destroy_transfer_eq db user txnId inst tu o hfind htu hnd hexp
  · intro hexp
    exact destroy_transfer_attr_eq db user txnId inst tu hfind htu hexp

/-- Witness for the amended C5, touching the three corrupted groups of the
example database. -/
theorem C5_corrupted_transfer_amended_witness :
    TransactionViewSet.update dbC5 1 10 pnone = (dbC5, some .invalidTransferState)
    ∧ TransactionViewSet.update dbC5 1 12 pnone = (dbC5, some (.sig .doesNotExist))
    ∧ TransactionViewSet.destroy dbC5 1 10
        = ({ dbC5 with
            accounts := dbC5.accounts.map (fun a =>
              { a with balance :=
                  a.balance - txnSum a.account_id (transferLegs dbC5 1 9) }),
            txns := dbC5.txns.filter (fun t =>
              !(t.transfer_uuid == some 9 && t.userId == 1)) }, none)
    ∧ TransactionViewSet.destroy dbC5 1 11 = (dbC5, some (.sig .attrError)) := by
  refine ⟨?_, ?_, ?_, ?_⟩
  · exact (C5_corrupted_transfer_amended dbC5 1 10 9 txnLoneExpense (by decide)
      (by decide)).1 (by decide) pnone rfl
  · exact (C5_corrupted_transfer_amended dbC5 1 12 7 txnTwoExpA (by decide)
      (by decide)).2.1 (by decide) (by decide) pnone rfl
  · exact (C5_corrupted_transfer_amended dbC5 1 10 9 txnLoneExpense (by decide)
      (by decide)).2.2.1 txnLoneExpense (by decide)
      (by unfold PkNodup; decide)
  · exact (C5_corrupted_transfer_amended dbC5 1 11 8 txnLoneIncome (by decide)
      (by decide)).2.2.2 (by decide)

/-- Claim C2: Paired deletion with single reversal — deleting either leg of an
existing well-formed transfer removes both rows and restores each account by
reverting exactly the effect of the leg referencing it (the outgoing,
expense-direction leg drives the one reversal pass; the incoming leg triggers
no balance change), so the source account gains back the amount once and the
destination account loses it once. -/
theorem C2_paired_deletion (db : DB) (user tu target : Nat) (o i tgt : Transaction)
    (X Y : Account)
    (hnd : PkNodup db)
    (hlen : (transferLegs db user tu).length = 2)
    (hexp : (transferLegs db user tu).filter (fun t => t.is_expense) = [o])
    (hinc : (transferLegs db user tu).filter (fun t => t.is_income) = [i])
    (hfind : db.txns.find? (fun t => t.txn_id == target && t.userId == user)
      = some tgt)
    (htgt : tgt = o ∨ tgt = i)
    (hne : o.account ≠ i.account)
    (hX : findAccount db o.account = some X)
    (hY : findAccount db i.account = some Y) :
    (TransactionViewSet.destroy db user target).2 = none
    ∧ (TransactionViewSet.destroy db user target).1.txns
        = db.txns.filter (fun t => !(t.transfer_uuid == some tu && t.userId == user))
    ∧ findAccount (TransactionViewSet.destroy db user target).1 o.account
        = some { X with balance := X.balance + o.amount }
    ∧ findAccount (TransactionViewSet.destroy db user target).1 i.account
        = some { Y with balance := Y.balance - i.amount } := by
  obtain ⟨hoL, hoe⟩ := filter_singleton_mem hexp
  obtain ⟨hiL, hie⟩ := filter_singleton_mem hinc
  obtain ⟨hoT, houuid, housr⟩ := (mem_transferLegs db user tu o).mp hoL
  obtain ⟨hiT, hiuuid, hiusr⟩ := (mem_transferLegs db user tu i).mp hiL
  have htuT : tgt.transfer_uuid = some tu := by rcases htgt with rfl | rfl <;> assumption
  have hexph : ((transferLegs db user tu).filter (fun t => t.is_expense)).head?
      = some o := by rw [hexp]; rfl
  have hsum_o : txnSum o.account (transferLegs db user tu) = -(o.amount) := by
    rcases legs_two_cases _ o i hlen hexp hinc with h2 | h2 <;> rw [h2]
    · rw [txnSum_cons, txnSum_cons, txnSum_nil, if_pos rfl,
        if_neg (fun h => hne h.symm), effect, sign_of_expense o hoe]
      ring
    · rw [txnSum_cons, txnSum_cons, txnSum_nil, if_pos rfl,
        if_neg (fun h => hne h.symm), effect, sign_of_expense o hoe]
      ring
  have hsum_i : txnSum i.account (transferLegs db user tu) = i.amount := by
    rcases legs_two_cases _ o i hlen hexp hinc with h2 | h2 <;> rw [h2]
    · rw [txnSum_cons, txnSum_cons, txnSum_nil, if_pos rfl, if_neg hne,
        effect, sign_of_income i hie]
      ring
    · rw [txnSum_cons, txnSum_cons, txnSum_nil, if_pos rfl, if_neg hne,
        effect, sign_of_income i hie]
      ring
  rw [destroy_transfer_eq db user target tgt tu o hfind htuT hnd hexph]
  refine ⟨rfl, rfl, ?_, ?_⟩
  · show (db.accounts.map (fun a : Account => { a with balance := a.balance - txnSum a.account_id (transferLegs db user tu) })).find? (fun a : Account => a.account_id == o.account) = some { X with balance := X.balance + o.amount }
    rw [find?_balance_map]
    have hX' : db.accounts.find? (fun a => a.account_id == o.account) = some X := hX
    have hXid : X.account_id = o.account := by
      have := List.find?_some hX'
      simpa using this
    rw [hX', Option.map_some', hXid, hsum_o, sub_neg_eq_add]
  · show (db.accounts.map (fun a : Account => { a with balance := a.balance - txnSum a.account_id (transferLegs db user tu) })).find? (fun a : Account => a.account_id == i.account) = some { Y with balance := Y.balance - i.amount }
    rw [find?_balance_map]
    have hY' : db.accounts.find? (fun a => a.account_id == i.account) = some Y := hY
    have hYid : Y.account_id = i.account := by
      have := List.find?_some hY'
      simpa using this
    rw [hY', Option.map_some', hYid, hsum_i]

/-- Witness for C2, targeting the incoming leg of the example transfer. -/
theorem C2_paired_deletion_witness :
    (TransactionViewSet.destroy dbW 1 3).2 = none
    ∧ (TransactionViewSet.destroy dbW 1 3).1.txns
        = dbW.txns.filter (fun t => !(t.transfer_uuid == some 100 && t.userId == 1))
    ∧ findAccount (TransactionViewSet.destroy dbW 1 3).1 txnOut.account
        = some { accCash with balance := accCash.balance + txnOut.amount }
    ∧ findAccount (TransactionViewSet.destroy dbW 1 3).1 txnIn.account
        = some { accBank with balance := accBank.balance - txnIn.amount } :=
  C2_paired_deletion dbW 1 100 3 txnOut txnIn txnIn accCash accBank
    (by unfold PkNodup; decide) (by decide) (by decide) (by decide) (by decide)
    (Or.inr rfl) (by decide) (by decide) (by decide)

theorem effect_of_income (t : Transaction) (h : t.category.ctype = CatType.income) :
    effect t = t.amount := by
  unfold effect sign
  rw [h, if_pos rfl]
  ring

theorem effect_of_expense (t : Transaction) (h : t.category.ctype = CatType.expense) :
    effect t = -t.amount := by
  unfold effect sign
  rw [h, if_neg (by decide)]
  ring

/-- The happy path of transfer creation, fully characterized: the validations
pass, a Transfer In income category ic is resolved per user, the outgoing row
is returned, the two rows share the fresh uuid, and the two balance deltas are
-amount on the source account then +amount on the destination account. -/
theorem create_transfer_success (db : DB) (user account : Nat) (category : Category)
    (amount : Int) (dsc : String) (dt : Int) (info : TransferInfo)
    (from_account to_account : Account)
    (hcat : category.userId = user)
    (hfrom : findAccount db account = some from_account)
    (hfromU : from_account.userId = user)
    (hto : findAccount db info.to_account = some to_account)
    (htoU : to_account.userId = user)
    (hexp : category.ctype = CatType.expense) :
    ∃ ic : Category,
      ic.userId = user ∧ ic.name = "Transfer In" ∧ ic.ctype = CatType.income
      ∧ (TransactionSerializer.create db user account category amount dsc dt
          (some info)).2
        = .ok { txn_id := db.nextTxnId, userId := user, account := account,
                category := category, amount := amount, description := dsc,
                txn_date := dt, transfer_uuid := some db.nextUuid }
      ∧ (TransactionSerializer.create db user account category amount dsc dt
          (some info)).1.txns
        = { txn_id := db.nextTxnId + 1, userId := user, account := info.to_account,
            category := ic, amount := amount,
            description := "Transfer from " ++ from_account.name ++ ": " ++ dsc,
            txn_date := dt, transfer_uuid := some db.nextUuid }
          :: { txn_id := db.nextTxnId, userId := user, account := account,
               category := category, amount := amount, description := dsc,
               txn_date := dt, transfer_uuid := some db.nextUuid } :: db.txns
      ∧ (TransactionSerializer.create db user account category amount dsc dt
          (some info)).1.accounts
        = applyDelta info.to_account amount
            (applyDelta account (-amount) db.accounts) := by
  have hval : validate_attrs db user (some category) (some account) = none := by
    simp [validate_attrs, account_owner_check, hcat, hfrom, hfromU]
  obtain ⟨hic1, hic2, hic3⟩ :=
    get_or_create_cat_props { db with nextUuid := db.nextUuid + 1 } user
  obtain ⟨hga, hgt, hgn⟩ :=
    get_or_create_preserves { db with nextUuid := db.nextUuid + 1 } user
  have hred : TransactionSerializer.create db user account category amount dsc dt
      (some info)
      = ((objects_create (objects_create
            (get_or_create_transfer_in { db with nextUuid := db.nextUuid + 1 } user).1
            user account category amount dsc dt (some db.nextUuid)).1
          user info.to_account
          (get_or_create_transfer_in { db with nextUuid := db.nextUuid + 1 } user).2
          amount ("Transfer from " ++ from_account.name ++ ": " ++ dsc) dt
          (some db.nextUuid)).1,
        .ok (objects_create
            (get_or_create_transfer_in { db with nextUuid := db.nextUuid + 1 } user).1
            user account category amount dsc dt (some db.nextUuid)).2) := by
    simp only [TransactionSerializer.create, hval, hto, hfrom]
    rw [if_neg (not_not_intro htoU), if_neg (not_not_intro hexp)]
  refine ⟨(get_or_create_transfer_in { db with nextUuid := db.nextUuid + 1 } user).2,
    hic1, hic2, hic3, ?_, ?_, ?_⟩
  · rw [hred]
    simp only [objects_create_spec]
    rw [hgn]
  · rw [hred]
    simp only [objects_create_spec]
    rw [hgn, hgt]
  · rw [hred]
    simp only [objects_create_spec]
    rw [hgn, hga]
    rw [effect_of_income _ hic3, effect_of_expense _ hexp]

/-- Claim C10: a successful transfer creation returns the outgoing
(expense-direction) leg — the response row carries the outgoing txn id
(the first fresh pk), the from-account, the caller's expense category and the
shared transfer uuid — and it is not the incoming leg that was also persisted. -/
theorem C10_create_returns_outgoing (db : DB) (user account : Nat)
    (category : Category) (amount : Int) (dsc : String) (dt : Int)
    (info : TransferInfo) (from_account to_account : Account)
    (hcat : category.userId = user)
    (hfrom : findAccount db account = some from_account)
    (hfromU : from_account.userId = user)
    (hto : findAccount db info.to_account = some to_account)
    (htoU : to_account.userId = user)
    (hexp : category.ctype = CatType.expense) :
    ∃ incoming : Transaction,
      (TransactionSerializer.create db user account category amount dsc dt
          (some info)).2
        = .ok { txn_id := db.nextTxnId, userId := user, account := account,
                category := category, amount := amount, description := dsc,
                txn_date := dt, transfer_uuid := some db.nextUuid }
      ∧ (TransactionSerializer.create db user account category amount dsc dt
          (some info)).1.txns
        = incoming
          :: { txn_id := db.nextTxnId, userId := user, account := account,
               category := category, amount := amount, description := dsc,
               txn_date := dt, transfer_uuid := some db.nextUuid } :: db.txns
      ∧ incoming.txn_id ≠ db.nextTxnId
      ∧ incoming.transfer_uuid = some db.nextUuid := by
  obtain ⟨ic, _, _, _, h2, htxns, _⟩ := create_transfer_success db user account
    category amount dsc dt info from_account to_account hcat hfrom hfromU hto htoU hexp
  refine ⟨_, h2, htxns, ?_, rfl⟩
  show db.nextTxnId + 1 ≠ db.nextTxnId
  omega

/-- Witness for C10 at the example database. -/
theorem C10_create_returns_outgoing_witness :
    ∃ incoming : Transaction,
      (TransactionSerializer.create dbW 1 1 catFood 300 "move" 1
          (some { to_account := 2 })).2
        = .ok { txn_id := dbW.nextTxnId, userId := 1, account := 1,
                category := catFood, amount := 300, description := "move",
                txn_date := 1, transfer_uuid := some dbW.nextUuid }
      ∧ (TransactionSerializer.create dbW 1 1 catFood 300 "move" 1
          (some { to_account := 2 })).1.txns
        = incoming
          :: { txn_id := dbW.nextTxnId, userId := 1, account := 1,
               category := catFood, amount := 300, description := "move",
               txn_date := 1, transfer_uuid := some dbW.nextUuid } :: dbW.txns
      ∧ incoming.txn_id ≠ dbW.nextTxnId
      ∧ incoming.transfer_uuid = some dbW.nextUuid :=
  C10_create_returns_outgoing dbW 1 1 catFood 300 "move" 1 { to_account := 2 }
    accCash accBank (by decide) (by decide) (by decide) (by decide) (by decide)
    (by decide)

/-- Claim C7: a successful transfer creation persists exactly two new rows
sharing the freshly generated uuid (no pre-existing row carries it): the
outgoing leg on the from-account with the caller's expense-direction category
and the incoming leg on the to-account with the per-user Transfer In income
category obtained by an idempotent get-or-create, both with equal amount and
the incoming description derived from the outgoing description and the source
account name. -/
theorem C7_transfer_create_postcondition (db : DB) (user account : Nat)
    (category : Category) (amount : Int) (dsc : String) (dt : Int)
    (info : TransferInfo) (from_account to_account : Account)
    (hcat : category.userId = user)
    (hfrom : findAccount db account = some from_account)
    (hfromU : from_account.userId = user)
    (hto : findAccount db info.to_account = some to_account)
    (htoU : to_account.userId = user)
    (hexp : category.ctype = CatType.expense)
    (hfresh : ∀ t ∈ db.txns, ∀ u2, t.transfer_uuid = some u2 → u2 < db.nextUuid) :
    ∃ ic : Category,
      ic.userId = user ∧ ic.name = "Transfer In" ∧ ic.ctype = CatType.income
      ∧ (TransactionSerializer.create db user account category amount dsc dt
          (some info)).1.txns
        = { txn_id := db.nextTxnId + 1, userId := user, account := info.to_account,
            category := ic, amount := amount,
            description := "Transfer from " ++ from_account.name ++ ": " ++ dsc,
            txn_date := dt, transfer_uuid := some db.nextUuid }
          :: { txn_id := db.nextTxnId, userId := user, account := account,
               category := category, amount := amount, description := dsc,
               txn_date := dt, transfer_uuid := some db.nextUuid } :: db.txns
      ∧ (∀ t ∈ db.txns, t.transfer_uuid ≠ some db.nextUuid)
      ∧ get_or_create_transfer_in (get_or_create_transfer_in db user).1 user
          = ((get_or_create_transfer_in db user).1,
             (get_or_create_transfer_in db user).2) := by
  obtain ⟨ic, h1, h2, h3, _, htxns, _⟩ := create_transfer_success db user account
    category amount dsc dt info from_account to_account hcat hfrom hfromU hto htoU hexp
  refine ⟨ic, h1, h2, h3, htxns, ?_, get_or_create_idempotent db user⟩
  intro t ht heq
  have hlt := hfresh t ht db.nextUuid heq
  omega

/-- Witness for C7 at the example database. -/
theorem C7_transfer_create_postcondition_witness :
    ∃ ic : Category,
      ic.userId = 1 ∧ ic.name = "Transfer In" ∧ ic.ctype = CatType.income
      ∧ (TransactionSerializer.create dbW 1 1 catFood 300 "move" 1
          (some { to_account := 2 })).1.txns
        = { txn_id := dbW.nextTxnId + 1, userId := 1, account := 2,
            category := ic, amount := 300,
            description := "Transfer from " ++ accCash.name ++ ": " ++ "move",
            txn_date := 1, transfer_uuid := some dbW.nextUuid }
          :: { txn_id := dbW.nextTxnId, userId := 1, account := 1,
               category := catFood, amount := 300, description := "move",
               txn_date := 1, transfer_uuid := some dbW.nextUuid } :: dbW.txns
      ∧ (∀ t ∈ dbW.txns, t.transfer_uuid ≠ some dbW.nextUuid)
      ∧ get_or_create_transfer_in (get_or_create_transfer_in dbW 1).1 1
          = ((get_or_create_transfer_in dbW 1).1,
             (get_or_create_transfer_in dbW 1).2) :=
  C7_transfer_create_postcondition dbW 1 1 catFood 300 "move" 1 { to_account := 2 }
    accCash accBank (by decide) (by decide) (by decide) (by decide) (by decide)
    (by decide) (by decide)

/-- Claim C4: atomic transfer creation — whenever any step of the transfer
creation fails the returned state is exactly the input state (no partial row or
balance change); and on the well-formed inputs the creation succeeds with the
source balance decreased and the destination balance increased by the amount,
together. -/
theorem C4_atomic_transfer_creation (db : DB) (user account : Nat)
    (category : Category) (amount : Int) (dsc : String) (dt : Int)
    (info : TransferInfo) (from_account to_account : Account)
    (hcat : category.userId = user)
    (hfrom : findAccount db account = some from_account)
    (hfromU : from_account.userId = user)
    (hto : findAccount db info.to_account = some to_account)
    (htoU : to_account.userId = user)
    (hexp : category.ctype = CatType.expense)
    (hne : account ≠ info.to_account) :
    (∀ (db' : DB) (u' a' : Nat) (c' : Category) (amt' : Int) (d' : String)
        (dt' : Int) (i' : TransferInfo) (db2 : DB) (e : ApiErr),
        TransactionSerializer.create db' u' a' c' amt' d' dt' (some i')
          = (db2, .error e) → db2 = db')
    ∧ findAccount (TransactionSerializer.create db user account category amount
          dsc dt (some info)).1 account
        = some { from_account with balance := from_account.balance - amount }
    ∧ findAccount (TransactionSerializer.create db user account category amount
          dsc dt (some info)).1 info.to_account
        = some { to_account with balance := to_account.balance + amount } := by
  obtain ⟨ic, _, _, _, _, _, haccs⟩ := create_transfer_success db user account
    category amount dsc dt info from_account to_account hcat hfrom hfromU hto htoU hexp
  have hfromId : from_account.account_id = account := by
    have := List.find?_some hfrom
    simpa using this
  have htoId : to_account.account_id = info.to_account := by
    have := List.find?_some hto
    simpa using this
  refine ⟨?_, ?_, ?_⟩
  · intro db' u' a' c' amt' d' dt' i' db2 e h
    unfold TransactionSerializer.create at h
    repeat' split at h
    all_goals (simp only [Prod.mk.injEq] at h; try exact h.1.symm)
    all_goals simp at h
  · show ((TransactionSerializer.create db user account category amount dsc dt
        (some info)).1.accounts).find? (fun a => a.account_id == account)
      = some { from_account with balance := from_account.balance - amount }
    rw [haccs, find?_applyDelta, find?_applyDelta]
    have hfrom' : db.accounts.find? (fun a => a.account_id == account)
        = some from_account := hfrom
    have hne1 : ¬(from_account.account_id = info.to_account) := by
      rw [hfromId]; exact hne
    rw [hfrom', Option.map_some', Option.map_some', if_pos hfromId, if_neg hne1]
    rw [sub_eq_add_neg]
  · show ((TransactionSerializer.create db user account category amount dsc dt
        (some info)).1.accounts).find? (fun a => a.account_id == info.to_account)
      = some { to_account with balance := to_account.balance + amount }
    rw [haccs, find?_applyDelta, find?_applyDelta]
    have hto' : db.accounts.find? (fun a => a.account_id == info.to_account)
        = some to_account := hto
    have hne2 : ¬(to_account.account_id = account) := by
      rw [htoId]; exact fun hc => hne hc.symm
    rw [hto', Option.map_some', Option.map_some', if_neg hne2, if_pos htoId]

/-- Witness for C4 at the example database. -/
theorem C4_atomic_transfer_creation_witness :
    (∀ (db' : DB) (u' a' : Nat) (c' : Category) (amt' : Int) (d' : String)
        (dt' : Int) (i' : TransferInfo) (db2 : DB) (e : ApiErr),
        TransactionSerializer.create db' u' a' c' amt' d' dt' (some i')
          = (db2, .error e) → db2 = db')
    ∧ findAccount (TransactionSerializer.create dbW 1 1 catFood 300 "move" 1
          (some { to_account := 2 })).1 1
        = some { accCash with balance := accCash.balance - 300 }
    ∧ findAccount (TransactionSerializer.create dbW 1 1 catFood 300 "move" 1
          (some { to_account := 2 })).1 2
        = some { accBank with balance := accBank.balance + 300 } :=
  C4_atomic_transfer_creation dbW 1 1 catFood 300 "move" 1 { to_account := 2 }
    accCash accBank (by decide) (by decide) (by decide) (by decide) (by decide)
    (by decide) (by decide)

theorem replaceTxn_pair_fst (a b n : Transaction) (h1 : a.txn_id = n.txn_id)
    (h2 : b.txn_id ≠ n.txn_id) : replaceTxn n [a, b] = [n, b] := by
  show (if a.txn_id == n.txn_id then n else a)
      :: (if b.txn_id == n.txn_id then n else b) :: [] = [n, b]
  rw [if_pos (by simp [h1]), if_neg (by simp [h2])]

theorem replaceTxn_pair_snd (a b n : Transaction) (h1 : a.txn_id ≠ n.txn_id)
    (h2 : b.txn_id = n.txn_id) : replaceTxn n [a, b] = [a, n] := by
  show (if a.txn_id == n.txn_id then n else a)
      :: (if b.txn_id == n.txn_id then n else b) :: [] = [a, n]
  rw [if_neg (by simp [h1]), if_pos (by simp [h2])]

theorem update_transfer_success_eq (db : DB) (user tgt tu : Nat) (p : Patch)
    (t0 o i : Transaction) (X : Account)
    (hnd : PkNodup db)
    (hfind : db.txns.find? (fun t => t.txn_id == tgt && t.userId == user) = some t0)
    (ht0 : t0 = o ∨ t0 = i)
    (hlen : (transferLegs db user tu).length = 2)
    (hexp : (transferLegs db user tu).filter (fun t => t.is_expense) = [o])
    (hinc : (transferLegs db user tu).filter (fun t => t.is_income) = [i])
    (hpacc : p.account = none) (hpcat : p.category = none)
    (hX : findAccount db o.account = some X) :
    TransactionViewSet.update db user tgt p
      = ({ db with
          txns := replaceTxn (applyPatch i (mirrorPatch X.name (applyPatch o p)))
            (replaceTxn (applyPatch o p) db.txns),
          accounts := applyDelta i.account ((applyPatch o p).amount - i.amount)
            (applyDelta o.account (o.amount - (applyPatch o p).amount)
              db.accounts) }, none) := by
  obtain ⟨hoL, hoe⟩ := filter_singleton_mem hexp
  obtain ⟨hiL, hio⟩ := filter_singleton_mem hinc
  obtain ⟨hoT, hou, housr⟩ := (mem_transferLegs db user tu o).mp hoL
  obtain ⟨hiT, hiu, hiusr⟩ := (mem_transferLegs db user tu i).mp hiL
  have hpkoi : o.txn_id ≠ i.txn_id :=
    expense_income_pk_ne db.txns hnd o i hoT hiT hoe hio
  have hoe2 : o.category.ctype = CatType.expense := by
    have h2 := hoe
    unfold Transaction.is_expense at h2
    exact of_decide_eq_true h2
  have hio2 : i.category.ctype = CatType.income := by
    have h2 := hio
    unfold Transaction.is_income at h2
    exact of_decide_eq_true h2
  have ht0u : t0.transfer_uuid = some tu := by
    rcases ht0 with rfl | rfl
    · exact hou
    · exact hiu
  have hnOcat : (applyPatch o p).category = o.category := by
    simp [applyPatch, hpcat]
  have hnOacc : (applyPatch o p).account = o.account := by
    simp [applyPatch, hpacc]
  have hnOcty : (applyPatch o p).category.ctype = CatType.expense := by
    rw [hnOcat]
    exact hoe2
  have hnOexp : (applyPatch o p).is_expense = true := by
    unfold Transaction.is_expense
    rw [hnOcat]
    exact hoe
  have hnOincF : (applyPatch o p).is_income = false := by
    unfold Transaction.is_income
    rw [hnOcat, hoe2]
    decide
  have hiexpF : i.is_expense = false := by
    unfold Transaction.is_expense
    rw [hio2]
    decide
  have hfind1 : findTxn db (applyPatch o p).txn_id = some o :=
    find?_pk_eq_of_mem_nodup db.txns o hoT hnd
  have hlenO : (transferLegs db (applyPatch o p).userId tu).length = 2 := by
    show (transferLegs db o.userId tu).length = 2
    rw [housr]
    exact hlen
  have hexpO : (transferLegs db (applyPatch o p).userId tu).filter
      (fun t => t.is_expense) = [o] := by
    show (transferLegs db o.userId tu).filter (fun t => t.is_expense) = [o]
    rw [housr]
    exact hexp
  have hincO : (transferLegs db (applyPatch o p).userId tu).filter
      (fun t => t.is_income) = [i] := by
    show (transferLegs db o.userId tu).filter (fun t => t.is_income) = [i]
    rw [housr]
    exact hinc
  have hsave1 := save_existing_transfer_eq db (applyPatch o p) o tu o i hfind1 hou
    hlenO hexpO hincO
  rw [if_neg (show ¬((applyPatch o p).txn_id = i.txn_id) from hpkoi),
    if_pos (show (applyPatch o p).txn_id = o.txn_id from rfl), applyDelta_zero,
    effect_of_expense (applyPatch o p) hnOcty, effect_of_expense o hoe2] at hsave1
  have hdel1 : -(applyPatch o p).amount - -o.amount
      = o.amount - (applyPatch o p).amount := by
    ring
  rw [hdel1] at hsave1
  have hfind2 : findTxn { db with
        txns := replaceTxn (applyPatch o p) db.txns,
        accounts := applyDelta o.account (o.amount - (applyPatch o p).amount)
          db.accounts } i.txn_id = some i := by
    show (replaceTxn (applyPatch o p) db.txns).find?
        (fun t => t.txn_id == i.txn_id) = some i
    rw [find?_replaceTxn_ne (applyPatch o p) db.txns i.txn_id
      (fun hcc => hpkoi hcc.symm)]
    exact find?_pk_eq_of_mem_nodup db.txns i hiT hnd
  have hlegs1 : transferLegs { db with
        txns := replaceTxn (applyPatch o p) db.txns,
        accounts := applyDelta o.account (o.amount - (applyPatch o p).amount)
          db.accounts } user tu
      = replaceTxn (applyPatch o p) (transferLegs db user tu) := by
    show (replaceTxn (applyPatch o p) db.txns).filter
        (fun t => t.transfer_uuid == some tu && t.userId == user)
      = replaceTxn (applyPatch o p) (transferLegs db user tu)
    apply filter_replaceTxn
    intro t ht hpk2
    have hto : t = o := eq_of_mem_pk db.txns hnd t o ht hoT hpk2
    rw [hto]
    rfl
  have hlegsU : transferLegs { db with
        txns := replaceTxn (applyPatch o p) db.txns,
        accounts := applyDelta o.account (o.amount - (applyPatch o p).amount)
          db.accounts } user tu = [applyPatch o p, i]
      ∨ transferLegs { db with
        txns := replaceTxn (applyPatch o p) db.txns,
        accounts := applyDelta o.account (o.amount - (applyPatch o p).amount)
          db.accounts } user tu = [i, applyPatch o p] := by
    rcases legs_two_cases _ o i hlen hexp hinc with hc | hc
    · left
      rw [hlegs1, hc]
      exact replaceTxn_pair_fst o i (applyPatch o p) rfl (fun hcc => hpkoi hcc.symm)
    · right
      rw [hlegs1, hc]
      exact replaceTxn_pair_snd i o (applyPatch o p) (fun hcc => hpkoi hcc.symm) rfl
  have hlen2 : (transferLegs { db with
        txns := replaceTxn (applyPatch o p) db.txns,
        accounts := applyDelta o.account (o.amount - (applyPatch o p).amount)
          db.accounts } i.userId tu).length = 2 := by
    rw [hiusr]
    rcases hlegsU with hc | hc <;> rw [hc] <;> rfl
  have hexp2 : (transferLegs { db with
        txns := replaceTxn (applyPatch o p) db.txns,
        accounts := applyDelta o.account (o.amount - (applyPatch o p).amount)
          db.accounts } i.userId tu).filter (fun t => t.is_expense)
      = [applyPatch o p] := by
    rw [hiusr]
    rcases hlegsU with hc | hc <;> rw [hc] <;>
      simp [List.filter_cons, hnOexp, hiexpF]
  have hinc2 : (transferLegs { db with
        txns := replaceTxn (applyPatch o p) db.txns,
        accounts := applyDelta o.account (o.amount - (applyPatch o p).amount)
          db.accounts } i.userId tu).filter (fun t => t.is_income) = [i] := by
    rw [hiusr]
    rcases hlegsU with hc | hc <;> rw [hc] <;>
      simp [List.filter_cons, hnOincF, hio]
  have hsave2 : save_existing { db with
        txns := replaceTxn (applyPatch o p) db.txns,
        accounts := applyDelta o.account (o.amount - (applyPatch o p).amount)
          db.accounts }
      (applyPatch i (mirrorPatch X.name (applyPatch o p)))
      = .ok { db with
          txns := replaceTxn (applyPatch i (mirrorPatch X.name (applyPatch o p)))
            (replaceTxn (applyPatch o p) db.txns),
          accounts := applyDelta i.account ((applyPatch o p).amount - i.amount)
            (applyDelta o.account (o.amount - (applyPatch o p).amount)
              db.accounts) } := by
    have h0 := save_existing_transfer_eq { db with
        txns := replaceTxn (applyPatch o p) db.txns,
        accounts := applyDelta o.account (o.amount - (applyPatch o p).amount)
          db.accounts }
      (applyPatch i (mirrorPatch X.name (applyPatch o p))) i tu (applyPatch o p) i
      hfind2 hiu hlen2 hexp2 hinc2
    rw [if_pos (show (applyPatch i (mirrorPatch X.name (applyPatch o p))).txn_id
          = i.txn_id from rfl),
      if_neg (show ¬((applyPatch i (mirrorPatch X.name (applyPatch o p))).txn_id
          = (applyPatch o p).txn_id) from fun hcc => hpkoi hcc.symm),
      applyDelta_zero,
      effect_of_income (applyPatch i (mirrorPatch X.name (applyPatch o p))) hio2,
      effect_of_income i hio2] at h0
    exact h0
  unfold TransactionViewSet.update
  simp only [hfind, ht0u]
  rw [if_neg (by simp [hpacc]), if_neg (not_not_intro hlen)]
  have hval : validate_attrs db user p.category p.account = none := by
    rw [hpcat, hpacc]
    rfl
  simp only [hexp, hinc, hval, hsave1, hnOacc, hX, Option.map_some',
    Option.getD_some, hsave2]

/-- Claim C3 counterexample: an update that targets the incoming leg (pk 3) of
the example transfer with a new description succeeds, but the edit lands on the
outgoing leg (pk 2) instead — the targeted row ends with the mirrored,
re-derived description rather than the caller's text — refuting the claim that
the caller's edit is applied to the targeted leg. -/
theorem C3_mirrored_update_counterexample :
    (TransactionViewSet.update dbW 1 3 patchFoo).2 = none
    ∧ (findTxn (TransactionViewSet.update dbW 1 3 patchFoo).1 3).map
        Transaction.description ≠ some "foo"
    ∧ (findTxn (TransactionViewSet.update dbW 1 3 patchFoo).1 3).map
        Transaction.description = some "Transfer from Cash: foo"
    ∧ (findTxn (TransactionViewSet.update dbW 1 3 patchFoo).1 2).map
        Transaction.description = some "foo" := by
  decide

/-- Claim C3 amended: for every account-preserving, category-preserving update
request targeting either leg of an existing well-formed transfer, the caller's
edit is applied to the outgoing (expense-direction) leg — regardless of which
leg the request targeted — and then amount, the re-derived description
('Transfer from {source account name}: {outgoing description}') and date are
mirrored onto the incoming leg; editing the amount from A to A′ leaves both
rows with amount A′ and adjusts the source account by A - A′ and the
destination account by A′ - A, inside the one request. -/
theorem C3_mirrored_transfer_update_amended (db : DB) (user tgt tu : Nat)
    (p : Patch) (t0 o i : Transaction) (X Y : Account)
    (hnd : PkNodup db)
    (hfind : db.txns.find? (fun t => t.txn_id == tgt && t.userId == user) = some t0)
    (ht0 : t0 = o ∨ t0 = i)
    (hlen : (transferLegs db user tu).length = 2)
    (hexp : (transferLegs db user tu).filter (fun t => t.is_expense) = [o])
    (hinc : (transferLegs db user tu).filter (fun t => t.is_income) = [i])
    (hpacc : p.account = none) (hpcat : p.category = none)
    (hX : findAccount db o.account = some X)
    (hY : findAccount db i.account = some Y)
    (hne : o.account ≠ i.account)
    (hamt : i.amount = o.amount) :
    (TransactionViewSet.update db user tgt p).2 = none
    ∧ findTxn (TransactionViewSet.update db user tgt p).1 o.txn_id
        = some (applyPatch o p)
    ∧ findTxn (TransactionViewSet.update db user tgt p).1 i.txn_id
        = some (applyPatch i (mirrorPatch X.name (applyPatch o p)))
    ∧ findAccount (TransactionViewSet.update db user tgt p).1 o.account
        = some { X with balance := X.balance + (o.amount - (applyPatch o p).amount) }
    ∧ findAccount (TransactionViewSet.update db user tgt p).1 i.account
        = some { Y with balance := Y.balance + ((applyPatch o p).amount - o.amount) } := by
  obtain ⟨hoL, hoe⟩ := filter_singleton_mem hexp
  obtain ⟨hiL, hio⟩ := filter_singleton_mem hinc
  obtain ⟨hoT, hou, housr⟩ := (mem_transferLegs db user tu o).mp hoL
  obtain ⟨hiT, hiu, hiusr⟩ := (mem_transferLegs db user tu i).mp hiL
  have hpkoi : o.txn_id ≠ i.txn_id :=
    expense_income_pk_ne db.txns hnd o i hoT hiT hoe hio
  have hupd := update_transfer_success_eq db user tgt tu p t0 o i X hnd hfind ht0
    hlen hexp hinc hpacc hpcat hX
  rw [hamt] at hupd
  have hXid : X.account_id = o.account := by
    have h2 := List.find?_some hX
    simpa using h2
  have hYid : Y.account_id = i.account := by
    have h2 := List.find?_some hY
    simpa using h2
  refine ⟨?_, ?_, ?_, ?_, ?_⟩
  · rw [hupd]
  · rw [hupd]
    show (replaceTxn (applyPatch i (mirrorPatch X.name (applyPatch o p)))
        (replaceTxn (applyPatch o p) db.txns)).find? (fun t => t.txn_id == o.txn_id)
      = some (applyPatch o p)
    rw [find?_replaceTxn_ne (applyPatch i (mirrorPatch X.name (applyPatch o p)))
      (replaceTxn (applyPatch o p) db.txns) o.txn_id hpkoi]
    exact find?_replaceTxn_eq (applyPatch o p) db.txns o
      (find?_pk_eq_of_mem_nodup db.txns o hoT hnd)
  · rw [hupd]
    show (replaceTxn (applyPatch i (mirrorPatch X.name (applyPatch o p)))
        (replaceTxn (applyPatch o p) db.txns)).find? (fun t => t.txn_id == i.txn_id)
      = some (applyPatch i (mirrorPatch X.name (applyPatch o p)))
    have hmid : (replaceTxn (applyPatch o p) db.txns).find?
        (fun t => t.txn_id == i.txn_id) = some i := by
      rw [find?_replaceTxn_ne (applyPatch o p) db.txns i.txn_id
        (fun hcc => hpkoi hcc.symm)]
      exact find?_pk_eq_of_mem_nodup db.txns i hiT hnd
    exact find?_replaceTxn_eq (applyPatch i (mirrorPatch X.name (applyPatch o p)))
      (replaceTxn (applyPatch o p) db.txns) i hmid
  · rw [hupd]
    show (applyDelta i.account ((applyPatch o p).amount - o.amount)
        (applyDelta o.account (o.amount - (applyPatch o p).amount)
          db.accounts)).find? (fun a => a.account_id == o.account)
      = some { X with balance := X.balance + (o.amount - (applyPatch o p).amount) }
    have hX2 : db.accounts.find? (fun a => a.account_id == o.account) = some X := hX
    rw [find?_applyDelta, find?_applyDelta, hX2, Option.map_some', Option.map_some',
      if_pos hXid, if_neg (show ¬(X.account_id = i.account) from
        fun hcc => hne (hXid.symm.trans hcc))]
  · rw [hupd]
    show (applyDelta i.account ((applyPatch o p).amount - o.amount)
        (applyDelta o.account (o.amount - (applyPatch o p).amount)
          db.accounts)).find? (fun a => a.account_id == i.account)
      = some { Y with balance := Y.balance + ((applyPatch o p).amount - o.amount) }
    have hY2 : db.accounts.find? (fun a => a.account_id == i.account) = some Y := hY
    rw [find?_applyDelta, find?_applyDelta, hY2, Option.map_some', Option.map_some',
      if_neg (show ¬(Y.account_id = o.account) from
        fun hcc => hne (hcc.symm.trans hYid)), if_pos hYid]

/-- Witness for the amended C3 at the example database: the request targets the
incoming leg (pk 3) with amount 450, yet the edit is applied to the outgoing
leg and mirrored back, with both balances adjusted by 300 - 450 and 450 - 300. -/
theorem C3_mirrored_transfer_update_amended_witness :
    (TransactionViewSet.update dbW 1 3 patchAmt450).2 = none
    ∧ findTxn (TransactionViewSet.update dbW 1 3 patchAmt450).1 txnOut.txn_id
        = some (applyPatch txnOut patchAmt450)
    ∧ findTxn (TransactionViewSet.update dbW 1 3 patchAmt450).1 txnIn.txn_id
        = some (applyPatch txnIn
            (mirrorPatch accCash.name (applyPatch txnOut patchAmt450)))
    ∧ findAccount (TransactionViewSet.update dbW 1 3 patchAmt450).1 txnOut.account
        = some { accCash with balance := accCash.balance
            + (txnOut.amount - (applyPatch txnOut patchAmt450).amount) }
    ∧ findAccount (TransactionViewSet.update dbW 1 3 patchAmt450).1 txnIn.account
        = some { accBank with balance := accBank.balance
            + ((applyPatch txnOut patchAmt450).amount - txnOut.amount) } :=
  C3_mirrored_transfer_update_amended dbW 1 3 100 patchAmt450 txnIn txnOut txnIn
    accCash accBank (by unfold PkNodup; decide) (by decide) (Or.inr rfl)
    (by decide) (by decide) (by decide) rfl rfl (by decide) (by decide)
    (by decide) (by decide)
